import Mathlib

/-!
# Coupon service of the Directory backend

A shallow embedding of `src/routes/couponRoutes.js` together with the schema
of `src/models/Coupon.js`.

Modelling conventions.

* A JavaScript Number that holds a finite value is a rational number.
  `useCoupon` computes the redemption rule exactly; `useCouponWith binary64`
  rounds the result of every operation to binary64, as the code does.
* Strings are sequences of Unicode scalar values. `toUpperCase` follows the
  case mappings of the Unicode Character Database, version 14.0.
* Instants (`Date.now()`, `Date#getTime()`) are integers (milliseconds).
* The collection is the list of its documents in insertion order. The
  `_id` of a document is its position in that list, so that `findById` is a
  lookup by position and `save` writes a document back to its position.
* The store holds documents as they are persisted: a counter path may be
  absent there (`undefined`). A query returns the document with the defaults
  of the schema filled in (`hydrate`), so that a handler reads 0 for an
  absent counter. `save` persists the document as the handler holds it.
  The other paths of the schema are always present.
* The paths that the driver maintains on its own (`createdAt`, `updatedAt`,
  the version key) are not part of a document.
* Every handler takes the store and the clock reading and returns the new
  store together with the HTTP response.
-/

namespace Directory

/-! ## Strings -/

/-- Code points removed by `String.prototype.trim`: the ECMAScript WhiteSpace
and LineTerminator productions. -/
def isWhiteSpaceCode (n : Nat) : Bool :=
  n = 0x09 || n = 0x0A || n = 0x0B || n = 0x0C || n = 0x0D || n = 0x20 ||
  n = 0xA0 || n = 0x1680 || (0x2000 ≤ n && n ≤ 0x200A) || n = 0x2028 ||
  n = 0x2029 || n = 0x202F || n = 0x205F || n = 0x3000 || n = 0xFEFF

/-- The characters removed by `String.prototype.trim`. -/
def isWhiteSpace (c : Char) : Bool := isWhiteSpaceCode c.toNat

/-- The simple upper-case mappings of the Unicode Character Database (version
14.0) above U+007F. An entry `(lo, hi, step, target)` maps the code points
`lo, lo + step, ..., hi` to `target, target + step, ...`. -/
def upperRanges : List (Nat × Nat × Nat × Nat) := [
  (181, 181, 1, 924), (224, 246, 1, 192), (248, 254, 1, 216), (255, 255, 1, 376),
  (257, 303, 2, 256), (305, 305, 1, 73), (307, 311, 2, 306), (314, 328, 2, 313),
  (331, 375, 2, 330), (378, 382, 2, 377), (383, 383, 1, 83), (384, 384, 1, 579),
  (387, 389, 2, 386), (392, 392, 1, 391), (396, 396, 1, 395), (402, 402, 1, 401),
  (405, 405, 1, 502), (409, 409, 1, 408), (410, 410, 1, 573), (414, 414, 1, 544),
  (417, 421, 2, 416), (424, 424, 1, 423), (429, 429, 1, 428), (432, 432, 1, 431),
  (436, 438, 2, 435), (441, 441, 1, 440), (445, 445, 1, 444), (447, 447, 1, 503),
  (453, 453, 1, 452), (454, 454, 1, 452), (456, 456, 1, 455), (457, 457, 1, 455),
  (459, 459, 1, 458), (460, 460, 1, 458), (462, 476, 2, 461), (477, 477, 1, 398),
  (479, 495, 2, 478), (498, 498, 1, 497), (499, 499, 1, 497), (501, 501, 1, 500),
  (505, 543, 2, 504), (547, 563, 2, 546), (572, 572, 1, 571), (575, 576, 1, 11390),
  (578, 578, 1, 577), (583, 591, 2, 582), (592, 592, 1, 11375), (593, 593, 1, 11373),
  (594, 594, 1, 11376), (595, 595, 1, 385), (596, 596, 1, 390), (598, 599, 1, 393),
  (601, 601, 1, 399), (603, 603, 1, 400), (604, 604, 1, 42923), (608, 608, 1, 403),
  (609, 609, 1, 42924), (611, 611, 1, 404), (613, 613, 1, 42893), (614, 614, 1, 42922),
  (616, 616, 1, 407), (617, 617, 1, 406), (618, 618, 1, 42926), (619, 619, 1, 11362),
  (620, 620, 1, 42925), (623, 623, 1, 412), (625, 625, 1, 11374), (626, 626, 1, 413),
  (629, 629, 1, 415), (637, 637, 1, 11364), (640, 640, 1, 422), (642, 642, 1, 42949),
  (643, 643, 1, 425), (647, 647, 1, 42929), (648, 648, 1, 430), (649, 649, 1, 580),
  (650, 651, 1, 433), (652, 652, 1, 581), (658, 658, 1, 439), (669, 669, 1, 42930),
  (670, 670, 1, 42928), (837, 837, 1, 921), (881, 883, 2, 880), (887, 887, 1, 886),
  (891, 893, 1, 1021), (940, 940, 1, 902), (941, 943, 1, 904), (945, 961, 1, 913),
  (962, 962, 1, 931), (963, 971, 1, 931), (972, 972, 1, 908), (973, 974, 1, 910),
  (976, 976, 1, 914), (977, 977, 1, 920), (981, 981, 1, 934), (982, 982, 1, 928),
  (983, 983, 1, 975), (985, 1007, 2, 984), (1008, 1008, 1, 922), (1009, 1009, 1, 929),
  (1010, 1010, 1, 1017), (1011, 1011, 1, 895), (1013, 1013, 1, 917), (1016, 1016, 1, 1015),
  (1019, 1019, 1, 1018), (1072, 1103, 1, 1040), (1104, 1119, 1, 1024), (1121, 1153, 2, 1120),
  (1163, 1215, 2, 1162), (1218, 1230, 2, 1217), (1231, 1231, 1, 1216), (1233, 1327, 2, 1232),
  (1377, 1414, 1, 1329), (4304, 4346, 1, 7312), (4349, 4351, 1, 7357), (5112, 5117, 1, 5104),
  (7296, 7296, 1, 1042), (7297, 7297, 1, 1044), (7298, 7298, 1, 1054), (7299, 7300, 1, 1057),
  (7301, 7301, 1, 1058), (7302, 7302, 1, 1066), (7303, 7303, 1, 1122), (7304, 7304, 1, 42570),
  (7545, 7545, 1, 42877), (7549, 7549, 1, 11363), (7566, 7566, 1, 42950), (7681, 7829, 2, 7680),
  (7835, 7835, 1, 7776), (7841, 7935, 2, 7840), (7936, 7943, 1, 7944), (7952, 7957, 1, 7960),
  (7968, 7975, 1, 7976), (7984, 7991, 1, 7992), (8000, 8005, 1, 8008), (8017, 8023, 2, 8025),
  (8032, 8039, 1, 8040), (8048, 8049, 1, 8122), (8050, 8053, 1, 8136), (8054, 8055, 1, 8154),
  (8056, 8057, 1, 8184), (8058, 8059, 1, 8170), (8060, 8061, 1, 8186), (8112, 8113, 1, 8120),
  (8126, 8126, 1, 921), (8144, 8145, 1, 8152), (8160, 8161, 1, 8168), (8165, 8165, 1, 8172),
  (8526, 8526, 1, 8498), (8560, 8575, 1, 8544), (8580, 8580, 1, 8579), (9424, 9449, 1, 9398),
  (11312, 11359, 1, 11264), (11361, 11361, 1, 11360), (11365, 11365, 1, 570),
  (11366, 11366, 1, 574), (11368, 11372, 2, 11367), (11379, 11379, 1, 11378),
  (11382, 11382, 1, 11381), (11393, 11491, 2, 11392), (11500, 11502, 2, 11499),
  (11507, 11507, 1, 11506), (11520, 11557, 1, 4256), (11559, 11559, 1, 4295),
  (11565, 11565, 1, 4301), (42561, 42605, 2, 42560), (42625, 42651, 2, 42624),
  (42787, 42799, 2, 42786), (42803, 42863, 2, 42802), (42874, 42876, 2, 42873),
  (42879, 42887, 2, 42878), (42892, 42892, 1, 42891), (42897, 42899, 2, 42896),
  (42900, 42900, 1, 42948), (42903, 42921, 2, 42902), (42933, 42947, 2, 42932),
  (42952, 42954, 2, 42951), (42961, 42961, 1, 42960), (42967, 42969, 2, 42966),
  (42998, 42998, 1, 42997), (43859, 43859, 1, 42931), (43888, 43967, 1, 5024),
  (65345, 65370, 1, 65313), (66600, 66639, 1, 66560), (66776, 66811, 1, 66736),
  (66967, 66977, 1, 66928), (66979, 66993, 1, 66940), (66995, 67001, 1, 66956),
  (67003, 67004, 1, 66964), (68800, 68850, 1, 68736), (71872, 71903, 1, 71840),
  (93792, 93823, 1, 93760), (125218, 125251, 1, 125184)
  ]

/-- The unconditional mappings of `SpecialCasing.txt` whose upper-case form has
more than one code point. -/
def upperSpecial : List (Nat × List Nat) := [
  (223, [83, 83]), (329, [700, 78]), (496, [74, 780]), (912, [921, 776, 769]),
  (944, [933, 776, 769]), (1415, [1333, 1362]), (7830, [72, 817]), (7831, [84, 776]),
  (7832, [87, 778]), (7833, [89, 778]), (7834, [65, 702]), (8016, [933, 787]),
  (8018, [933, 787, 768]), (8020, [933, 787, 769]), (8022, [933, 787, 834]), (8064, [7944, 921]),
  (8065, [7945, 921]), (8066, [7946, 921]), (8067, [7947, 921]), (8068, [7948, 921]),
  (8069, [7949, 921]), (8070, [7950, 921]), (8071, [7951, 921]), (8072, [7944, 921]),
  (8073, [7945, 921]), (8074, [7946, 921]), (8075, [7947, 921]), (8076, [7948, 921]),
  (8077, [7949, 921]), (8078, [7950, 921]), (8079, [7951, 921]), (8080, [7976, 921]),
  (8081, [7977, 921]), (8082, [7978, 921]), (8083, [7979, 921]), (8084, [7980, 921]),
  (8085, [7981, 921]), (8086, [7982, 921]), (8087, [7983, 921]), (8088, [7976, 921]),
  (8089, [7977, 921]), (8090, [7978, 921]), (8091, [7979, 921]), (8092, [7980, 921]),
  (8093, [7981, 921]), (8094, [7982, 921]), (8095, [7983, 921]), (8096, [8040, 921]),
  (8097, [8041, 921]), (8098, [8042, 921]), (8099, [8043, 921]), (8100, [8044, 921]),
  (8101, [8045, 921]), (8102, [8046, 921]), (8103, [8047, 921]), (8104, [8040, 921]),
  (8105, [8041, 921]), (8106, [8042, 921]), (8107, [8043, 921]), (8108, [8044, 921]),
  (8109, [8045, 921]), (8110, [8046, 921]), (8111, [8047, 921]), (8114, [8122, 921]),
  (8115, [913, 921]), (8116, [902, 921]), (8118, [913, 834]), (8119, [913, 834, 921]),
  (8124, [913, 921]), (8130, [8138, 921]), (8131, [919, 921]), (8132, [905, 921]),
  (8134, [919, 834]), (8135, [919, 834, 921]), (8140, [919, 921]), (8146, [921, 776, 768]),
  (8147, [921, 776, 769]), (8150, [921, 834]), (8151, [921, 776, 834]), (8162, [933, 776, 768]),
  (8163, [933, 776, 769]), (8164, [929, 787]), (8166, [933, 834]), (8167, [933, 776, 834]),
  (8178, [8186, 921]), (8179, [937, 921]), (8180, [911, 921]), (8182, [937, 834]),
  (8183, [937, 834, 921]), (8188, [937, 921]), (64256, [70, 70]), (64257, [70, 73]),
  (64258, [70, 76]), (64259, [70, 70, 73]), (64260, [70, 70, 76]), (64261, [83, 84]),
  (64262, [83, 84]), (64275, [1348, 1350]), (64276, [1348, 1333]), (64277, [1348, 1339]),
  (64278, [1358, 1350]), (64279, [1348, 1341])
  ]

/-- Search of a table of special casings, sorted by code point. -/
def lookupSpecial (n : Nat) : List (Nat × List Nat) → Option (List Nat)
  | [] => none
  | (k, v) :: rest =>
    if n < k then none else if k = n then some v else lookupSpecial n rest

/-- Search of a table of simple mappings, sorted by `lo`. -/
def lookupRange (n : Nat) : List (Nat × Nat × Nat × Nat) → Option Nat
  | [] => none
  | (lo, hi, step, target) :: rest =>
    if n < lo then none
    else if n ≤ hi ∧ (n - lo) % step = 0 then some (target + (n - lo))
    else lookupRange n rest

/-- The upper-case form of a code point above U+007F: the special casing
when there is one, else the simple mapping, else the code point itself. -/
def upperCode (n : Nat) : List Nat :=
  match lookupSpecial n upperSpecial with
  | some v => v
  | none =>
    match lookupRange n upperRanges with
    | some m => [m]
    | none => [n]

/-- The upper-case form of one character: `a` to `z` go to `A` to `Z`, the
rest of ASCII is fixed, and the other characters follow the tables. -/
def toUpperChar (c : Char) : List Char :=
  if c.toNat < 128 then [Char.toUpper c] else (upperCode c.toNat).map Char.ofNat

/-- The method `toUpperCase`: the language-independent full case mapping,
character by character. -/
def toUpperCase (s : String) : String :=
  ⟨s.data.flatMap toUpperChar⟩


/-- The code points that an entry of `upperRanges` maps to. -/
def rangeOutputs (r : Nat × Nat × Nat × Nat) : List Nat :=
  (List.range ((r.2.1 - r.1) / r.2.2.1 + 1)).map (fun i => r.2.2.2 + i * r.2.2.1)

/-- Every code point that occurs in an upper-case form of the tables. -/
def upperOutputs : List Nat :=
  upperSpecial.flatMap (fun e => e.2) ++ upperRanges.flatMap rangeOutputs

/-- The test that a code point is a scalar value, is not white space and has
no upper-case mapping of its own. -/
def fixedCode (x : Nat) : Bool :=
  (x < 0xD800 || (0xE000 ≤ x && x < 0x110000)) && !isWhiteSpaceCode x &&
  (if x < 128 then !(97 ≤ x && x ≤ 122)
   else (lookupSpecial x upperSpecial).isNone && (lookupRange x upperRanges).isNone)

/-- The method `trim`: white space is dropped at both ends. -/
def trim (s : String) : String :=
  ⟨(s.data.dropWhile isWhiteSpace).rdropWhile isWhiteSpace⟩

/-! ## Numbers -/

/-- The value of a Number path of a document: a number, absent (`undefined`)
in a persisted document that was written before the path existed, or `NaN`. -/
inductive JsNumber where
  | undefined
  | NaN
  | num (q : ℚ)
deriving DecidableEq

/-- The compound assignment `x += y` for a finite `y`. The handlers apply it
to the counters of a loaded document, which are never `undefined`. -/
def JsNumber.add : JsNumber → ℚ → JsNumber
  | .num q, y => .num (q + y)
  | .undefined, _ => .NaN
  | .NaN, _ => .NaN

/-- On a finite Number, `parseFloat` gives the number back. -/
def parseFloat (x : ℚ) : ℚ := x

/-! ## Documents and the store -/

/-- A document of the `Coupon` collection, with the paths the schema declares. -/
structure Coupon where
  name : String
  code : String
  active : Bool
  amount : ℚ
  discount : ℚ
  expiresAt : Option Int
  isUsed : Bool
  usedAt : Option Int
  usageCount : JsNumber
  totalDiscount : JsNumber
  category : List String
deriving DecidableEq

/-- The collection, in insertion order. -/
abbrev Store := List Coupon

/-- The defaults of `couponSchema` that the driver fills in when it loads a
document: `usageCount` and `totalDiscount` have `default: 0`. -/
def hydrate (c : Coupon) : Coupon :=
  { c with
    usageCount := if c.usageCount = .undefined then .num 0 else c.usageCount
    totalDiscount := if c.totalDiscount = .undefined then .num 0 else c.totalDiscount }

/-- Search used by `findOne`: the first document with the given code, from
position `i` on, as the driver loads it. -/
def findOneFrom (code : String) : List Coupon → Nat → Option (Nat × Coupon)
  | [], _ => none
  | c :: rest, i =>
    if c.code = code then some (i, hydrate c) else findOneFrom code rest (i + 1)

/-- The query `Coupon.findOne({ code })`: the document and its `_id`. -/
def findOne (s : Store) (code : String) : Option (Nat × Coupon) :=
  findOneFrom code s 0

/-- The query `Coupon.findById(id)`. -/
def findById (s : Store) (id : Nat) : Option Coupon := (s[id]?).map hydrate

/-- The query `Coupon.find()`: every document, as the driver loads it. -/
def find (s : Store) : List Coupon := s.map hydrate

/-- The call `coupon.save()` on a document that was loaded with `_id = id`:
the driver writes the paths that were assigned and the paths that it filled
from a default; the other paths hold what is persisted, so that the persisted
document becomes the document in memory. -/
def save (s : Store) (id : Nat) (coupon : Coupon) : Store := s.set id coupon

/-! ## Responses -/

/-- The projection returned by `GET /usage`. -/
structure UsageEntry where
  code : String
  name : String
  amount : ℚ
  discount : ℚ
  usageCount : JsNumber
  totalDiscount : JsNumber
deriving DecidableEq

/-- The response of a handler. `error` covers every body of the shape
`{ success: false, message }` or `{ valid: false, message }`. -/
inductive Response where
  | error (status : Nat) (message : String)
  | created (coupon : Coupon)
  | usage (entries : List UsageEntry)
  | valid (coupon : Coupon) (discountAmount : ℚ)
  | used (coupon : Coupon) (originalAmount discountAmount orderAmountAfterDiscount : ℚ)
  | toggled (coupon : Coupon)
deriving DecidableEq

/-- The HTTP status of a response. -/
def Response.status : Response → Nat
  | .error status _ => status
  | .created _ => 201
  | .usage _ => 200
  | .valid _ _ => 200
  | .used _ _ _ _ => 200
  | .toggled _ => 200

/-! ## Redemption rule -/

/-- The constant `maxDiscount` of the `/use/:code` handler. -/
def maxDiscount : ℚ := 20

/-- The constant `maxAllowedDiscount` of the `/use/:code` handler. -/
def maxAllowedDiscount : ℚ := 500

/-- The value `baseDiscountAmount`. -/
def baseDiscountAmount (orderAmount discountPercent : ℚ) : ℚ :=
  (orderAmount * discountPercent) / 100

/-- The value `discountAmount` after the cap. -/
def discountAmount (orderAmount discountPercent : ℚ) : ℚ :=
  min ((baseDiscountAmount orderAmount discountPercent * maxDiscount) / 100) maxAllowedDiscount

/-- The test `coupon.expiresAt && Date.now() > coupon.expiresAt.getTime()`. -/
def isExpired (coupon : Coupon) (now : Int) : Bool :=
  match coupon.expiresAt with
  | none => false
  | some t => decide (now > t)

/-- The handler of `POST /use/:code`. -/
def useCoupon (s : Store) (codeParam : String) (now : Int) : Store × Response :=
  if codeParam = "" then (s, .error 400 "Validation failed") else
  let code := trim (toUpperCase codeParam)
  match findOne s code with
  | none => (s, .error 404 "Coupon not found")
  | some (id, coupon) =>
    if !coupon.active then (s, .error 400 "Coupon is inactive")
    else if isExpired coupon now then (s, .error 400 "Coupon expired")
    else
      let orderAmount := parseFloat coupon.amount
      let discountPercent := parseFloat coupon.discount
      let discountAmount := discountAmount orderAmount discountPercent
      let orderAmountAfterDiscount := orderAmount - discountAmount
      let coupon := { coupon with
        usageCount := coupon.usageCount.add 1
        totalDiscount := coupon.totalDiscount.add discountAmount
        usedAt := some now }
      (save s id coupon, .used coupon orderAmount discountAmount orderAmountAfterDiscount)

/-! ## Redemption in binary64

The handler computes with binary64 numbers: every arithmetic operation gives
the exact result rounded to the nearest binary64 value, ties to even. The
definitions of this section take the rounding as a parameter `fl`; the
identity gives the exact arithmetic of `useCoupon`, and `binary64` gives the
arithmetic of the code. The exponent range of `binary64` is taken as
unbounded: overflow to `Infinity` and gradual underflow are not modelled. -/

/-- The integer nearest to `x`; a tie goes to the even one. -/
def roundHalfEven (x : ℚ) : ℤ :=
  if x - ⌊x⌋ < 1 / 2 then ⌊x⌋
  else if 1 / 2 < x - ⌊x⌋ then ⌊x⌋ + 1
  else if ⌊x⌋ % 2 = 0 then ⌊x⌋ else ⌊x⌋ + 1

/-- Rounding to binary64: the significand `x / 2 ^ e`, scaled into the range
from `2 ^ 52` to `2 ^ 53`, is rounded to the nearest integer. -/
def binary64 (x : ℚ) : ℚ :=
  if x = 0 then 0
  else (roundHalfEven (x / 2 ^ (Int.log 2 |x| - 52)) : ℚ) * 2 ^ (Int.log 2 |x| - 52)

/-- The compound assignment `x += y` with the sum rounded by `fl`. -/
def JsNumber.addWith (fl : ℚ → ℚ) : JsNumber → ℚ → JsNumber
  | .num q, y => .num (fl (q + y))
  | .undefined, _ => .NaN
  | .NaN, _ => .NaN

/-- The value `baseDiscountAmount`, each operation rounded by `fl`. -/
def baseDiscountAmountWith (fl : ℚ → ℚ) (orderAmount discountPercent : ℚ) : ℚ :=
  fl (fl (orderAmount * discountPercent) / 100)

/-- The value `discountAmount` after the cap, each operation rounded by `fl`. -/
def discountAmountWith (fl : ℚ → ℚ) (orderAmount discountPercent : ℚ) : ℚ :=
  min (fl (fl (baseDiscountAmountWith fl orderAmount discountPercent * maxDiscount) / 100))
    maxAllowedDiscount

/-- The handler of `POST /use/:code`, each arithmetic operation rounded by `fl`. -/
def useCouponWith (fl : ℚ → ℚ) (s : Store) (codeParam : String) (now : Int) :
    Store × Response :=
  if codeParam = "" then (s, .error 400 "Validation failed") else
  let code := trim (toUpperCase codeParam)
  match findOne s code with
  | none => (s, .error 404 "Coupon not found")
  | some (id, coupon) =>
    if !coupon.active then (s, .error 400 "Coupon is inactive")
    else if isExpired coupon now then (s, .error 400 "Coupon expired")
    else
      let orderAmount := parseFloat coupon.amount
      let discountPercent := parseFloat coupon.discount
      let discountAmount := discountAmountWith fl orderAmount discountPercent
      let orderAmountAfterDiscount := fl (orderAmount - discountAmount)
      let coupon := { coupon with
        usageCount := coupon.usageCount.addWith fl 1
        totalDiscount := coupon.totalDiscount.addWith fl discountAmount
        usedAt := some now }
      (save s id coupon, .used coupon orderAmount discountAmount orderAmountAfterDiscount)

/-! ## Validation -/

/-- The identifier `discountAmount` as the `/validate/:code` handler sees it.
The handler declares no such name and the module binds only `express`,
`router`, `body`, `param`, `validationResult`, `Coupon`, `orderAmount`,
`handleValidation` and `isValidExpiryDate`, so that evaluating it raises a
ReferenceError with this message. -/
def validateScopeDiscountAmount : Except String ℚ :=
  .error "discountAmount is not defined"

/-- The handler of `GET /validate/:code`. The store is only read. -/
def validateCoupon (s : Store) (codeParam : String) (now : Int) : Response :=
  if codeParam = "" then .error 400 "Validation failed" else
  let code := trim (toUpperCase codeParam)
  match findOne s code with
  | none => .error 404 "Coupon not found"
  | some (_, coupon) =>
    if !coupon.active then .error 400 "Coupon is inactive"
    else if isExpired coupon now then .error 400 "Coupon expired"
    else
      match validateScopeDiscountAmount with
      | .ok discountAmount => .valid coupon discountAmount
      | .error message => .error 500 message

/-! ## Toggle -/

/-- The path segment `:id` of a request: the text of an ObjectId, or text
that the cast to ObjectId rejects. -/
inductive IdParam where
  | objectId (id : Nat)
  | malformed
deriving DecidableEq

/-- The handler of `PUT /toggle/:id`. -/
def toggleCoupon (s : Store) (id : IdParam) : Store × Response :=
  match id with
  | .malformed => (s, .error 500 "Server error while toggling coupon")
  | .objectId id =>
    match findById s id with
    | none => (s, .error 404 "Coupon not found")
    | some coupon =>
      let coupon := { coupon with active := !coupon.active }
      (save s id coupon, .toggled coupon)

/-! ## Usage summary -/

/-- The body of the auto-fix loop of `GET /usage` for one document: the
document after the assignments and the flag `updated`. -/
def autoFix (coupon : Coupon) : Coupon × Bool :=
  let updated := false
  let (coupon, updated) :=
    if coupon.usageCount = .undefined then ({ coupon with usageCount := .num 0 }, true)
    else (coupon, updated)
  let (coupon, updated) :=
    if coupon.totalDiscount = .undefined then ({ coupon with totalDiscount := .num 0 }, true)
    else (coupon, updated)
  (coupon, updated)

/-- The auto-fix loop over the documents that `Coupon.find()` returned, the
first of them having `_id = id`: the store after the saves and the documents
as they are in memory after the loop. -/
def autoFixLoop : List Coupon → Nat → Store → Store × List Coupon
  | [], _, s => (s, [])
  | coupon :: rest, id, s =>
    let (coupon, updated) := autoFix coupon
    let s := if updated then save s id coupon else s
    let (s, coupons) := autoFixLoop rest (id + 1) s
    (s, coupon :: coupons)

/-- The projection `sanitized` of one document. -/
def sanitize (c : Coupon) : UsageEntry :=
  { code := c.code, name := c.name, amount := c.amount, discount := c.discount,
    usageCount := c.usageCount, totalDiscount := c.totalDiscount }

/-- The handler of `GET /usage`. -/
def usageSummary (s : Store) : Store × Response :=
  let coupons := find s
  let (s, coupons) := autoFixLoop coupons 0 s
  (s, .usage (coupons.map sanitize))

/-! ## Creation -/

/-- The body of a `POST /create` request. `code` is `none` when the body has
no string under `code`; `expiresAt` is `none` when absent and otherwise the
instant that `new Date` reads from the ISO 8601 text (`none` for an invalid
date). `amount` is the number that the text of the field denotes. -/
structure CreateBody where
  code : Option String
  amount : ℚ
  discount : String
  name : Option String
  expiresAt : Option (Option Int)
  category : Option (List String)
deriving DecidableEq

/-- The helper `isValidExpiryDate`. -/
def isValidExpiryDate (date : Option (Option Int)) (now : Int) : Bool :=
  match date with
  | none => true
  | some none => false
  | some (some t) => decide (t > now)

/-- The validation chain of `POST /create` with `handleValidation`: `amount`
is a float greater than 0 and `discount` is not empty once trimmed. -/
def createValidation (b : CreateBody) : Bool :=
  decide (0 < b.amount) && decide (trim b.discount ≠ "")

/-- The setters `uppercase: true, trim: true` of the schema path `code`. -/
def codeSetter (v : String) : String := trim (toUpperCase v)

/-- The document that `new Coupon({...})` builds and `save` validates against
`couponSchema`: setters, casts, defaults, `required`, `min` and `max`. The cast
of text to Number, `castNumber`, belongs to the library; `none` is a failed
cast. The result is `none` when validation fails. -/
def couponSchema (castNumber : String → Option ℚ) (code : String) (name : Option String)
    (amount : ℚ) (discount : String) (expiresAt : Option Int) (category : List String) :
    Option Coupon :=
  match name, castNumber discount with
  | some name, some discount =>
    if name ≠ "" ∧ codeSetter code ≠ "" ∧ 0 ≤ amount ∧ 0 ≤ discount ∧ discount ≤ 100 then
      some { name := name, code := codeSetter code, active := true, amount := amount,
             discount := discount, expiresAt := expiresAt, isUsed := false, usedAt := none,
             usageCount := .num 0, totalDiscount := .num 0, category := category }
    else none
  | _, _ => none

/-- The handler of `POST /create`. -/
def createCoupon (castNumber : String → Option ℚ) (s : Store) (b : CreateBody) (now : Int) :
    Store × Response :=
  if !createValidation b then (s, .error 400 "Validation failed") else
  let discount := trim b.discount
  let name := b.name.map trim
  match b.code with
  | none => (s, .error 500 "Cannot read properties of undefined")
  | some code =>
    let formattedCode := trim (toUpperCase code)
    if !isValidExpiryDate b.expiresAt now then
      (s, .error 400 "Expiry date must be in the future")
    else
      match findOne s formattedCode with
      | some _ => (s, .error 409 "Coupon with this code already exists")
      | none =>
        match couponSchema castNumber formattedCode (name.map trim) b.amount (trim discount)
            (b.expiresAt.join) (b.category.getD []) with
        | none => (s, .error 500 "Coupon validation failed")
        | some coupon =>
          match findOne s coupon.code with
          | some _ => (s, .error 500 "E11000 duplicate key error")
          | none => (s ++ [coupon], .created coupon)

/-! ## Histories -/

/-- A request to the coupon routes that can change the store. -/
inductive Request where
  | create (b : CreateBody)
  | use (codeParam : String)
  | toggle (id : IdParam)
  | usage

/-- The store after a request is served at the instant `now`. -/
def serve (castNumber : String → Option ℚ) (s : Store) (now : Int) : Request → Store
  | .create b => (createCoupon castNumber s b now).1
  | .use codeParam => (useCoupon s codeParam now).1
  | .toggle id => (toggleCoupon s id).1
  | .usage => (usageSummary s).1

/-- The stores that arise from the empty collection by serving requests. -/
inductive Reachable (castNumber : String → Option ℚ) : Store → Prop where
  | empty : Reachable castNumber []
  | step {s : Store} (now : Int) (r : Request) :
      Reachable castNumber s → Reachable castNumber (serve castNumber s now r)

/-! ## Sample documents -/

/-- An active coupon without expiry, as `POST /create` stores it for the code
`SAVE10`, amount 1000 and discount 25. -/
def sampleCoupon : Coupon :=
  { name := "Launch", code := "SAVE10", active := true, amount := 1000, discount := 25,
    expiresAt := none, isUsed := false, usedAt := none, usageCount := .num 0,
    totalDiscount := .num 0, category := [] }

/-- An active coupon without expiry with amount 1000000 and discount 100. -/
def largeCoupon : Coupon :=
  { sampleCoupon with code := "BIG", amount := 1000000, discount := 100 }

/-- A coupon that expired at instant 100 and is still active. -/
def expiredCoupon : Coupon :=
  { sampleCoupon with code := "OLD", expiresAt := some 100 }

/-- A coupon that expired at instant 100 and has been switched off. -/
def expiredInactiveCoupon : Coupon :=
  { sampleCoupon with code := "OFF", active := false, expiresAt := some 100 }

/-- A coupon that has been switched off and expires at instant 1000. -/
def inactiveCoupon : Coupon :=
  { sampleCoupon with code := "PAUSED", active := false, expiresAt := some 1000 }

/-- A cast of text to Number that reads the text `25` and rejects the rest. -/
def sampleCast (text : String) : Option ℚ :=
  if text = "25" then some 25 else none

/-- A create request for the code ` save10 `, amount 1000 and discount `25`. -/
def sampleBody : CreateBody :=
  { code := some " save10 ", amount := 1000, discount := "25", name := some "Launch",
    expiresAt := none, category := none }

/-- A create request for the code `SAVE10`. -/
def sampleBodyUpper : CreateBody :=
  { sampleBody with code := some "SAVE10", name := some "Second" }

/-- A create request for the code `straße`. -/
def sharpBody : CreateBody :=
  { sampleBody with code := some "straße" }

/-- A create request for the code ` STRASSE `. -/
def sharpBodyUpper : CreateBody :=
  { sampleBody with code := some " STRASSE ", name := some "Second" }

/-- The coupon that `POST /create` stores for `sharpBody`. -/
def sharpCoupon : Coupon :=
  { sampleCoupon with code := "STRASSE" }

/-- A coupon whose amount is the binary64 value nearest to 0.11, with
discount 100. -/
def tinyCoupon : Coupon :=
  { sampleCoupon with
    code := "TINY", amount := 7926335344172073 / 72057594037927936, discount := 100 }

/-- A coupon persisted before the counters existed: `usageCount` is absent. -/
def legacyCoupon : Coupon :=
  { sampleCoupon with code := "LEGACY", usageCount := .undefined, totalDiscount := .num 30 }

/-- The invariant of the documents of a reachable store: both counters are
numbers that are not negative, and so are the amount and the discount. -/
def CouponOk (c : Coupon) : Prop :=
  (∃ u t, c.usageCount = .num u ∧ c.totalDiscount = .num t ∧ 0 ≤ u ∧ 0 ≤ t) ∧
  0 ≤ c.amount ∧ 0 ≤ c.discount

/-- The counters of `c'` are numbers not below the counters of `c`. -/
def Grows (c c' : Coupon) : Prop :=
  ∃ u t u' t', c.usageCount = .num u ∧ c'.usageCount = .num u' ∧ u ≤ u' ∧
    c.totalDiscount = .num t ∧ c'.totalDiscount = .num t' ∧ t ≤ t'

/-! ## Lemmas on the store -/

theorem hydrate_of_defined (c : Coupon) (hu : c.usageCount ≠ .undefined)
    (ht : c.totalDiscount ≠ .undefined) : hydrate c = c := by
  simp [hydrate, hu, ht]

theorem hydrate_defined (c : Coupon) :
    (hydrate c).usageCount ≠ .undefined ∧ (hydrate c).totalDiscount ≠ .undefined := by
  unfold hydrate
  constructor
  · by_cases h : c.usageCount = .undefined <;> simp [h]
  · by_cases h : c.totalDiscount = .undefined <;> simp [h]

theorem hydrate_hydrate (c : Coupon) : hydrate (hydrate c) = hydrate c :=
  hydrate_of_defined _ (hydrate_defined c).1 (hydrate_defined c).2

theorem findOneFrom_spec (code : String) (l : List Coupon) (k i : Nat) (c : Coupon)
    (h : findOneFrom code l k = some (i, c)) :
    k ≤ i ∧ (l[i - k]?).map hydrate = some c ∧ c.code = code := by
  induction l generalizing k with
  | nil => simp [findOneFrom] at h
  | cons d rest ih =>
    unfold findOneFrom at h
    split at h
    · rename_i hd
      simp only [Option.some.injEq, Prod.mk.injEq] at h
      obtain ⟨rfl, rfl⟩ := h
      simp [hd, hydrate]
    · obtain ⟨hk, hget, hc⟩ := ih (k + 1) h
      refine ⟨by omega, ?_, hc⟩
      have : i - k = (i - (k + 1)) + 1 := by omega
      rw [this, List.getElem?_cons_succ]
      exact hget

theorem findOne_spec (s : Store) (code : String) (i : Nat) (c : Coupon)
    (h : findOne s code = some (i, c)) : findById s i = some c ∧ c.code = code := by
  have := findOneFrom_spec code s 0 i c h
  simpa [findById] using this.2

theorem findById_stored (s : Store) (i : Nat) (c : Coupon) (h : findById s i = some c) :
    ∃ stored, s[i]? = some stored ∧ hydrate stored = c := by
  unfold findById at h
  cases hs : s[i]? with
  | none => simp [hs] at h
  | some stored =>
    rw [hs] at h
    simp only [Option.map_some', Option.some.injEq] at h
    exact ⟨stored, rfl, h⟩

theorem findById_loaded (s : Store) (i : Nat) (c : Coupon) (h : findById s i = some c) :
    hydrate c = c := by
  obtain ⟨stored, _, rfl⟩ := findById_stored s i c h
  exact hydrate_hydrate stored

theorem findById_save_self (s : Store) (i : Nat) (c d : Coupon) (h : findById s i = some c)
    (hd : hydrate d = d) : findById (save s i d) i = some d := by
  obtain ⟨stored, hs, _⟩ := findById_stored s i c h
  have hi : i < s.length := by
    rcases Nat.lt_or_ge i s.length with hlt | hge
    · exact hlt
    · rw [List.getElem?_eq_none hge] at hs
      cases hs
  simp [findById, save, List.getElem?_set, hi, hd]

theorem stored_save_self (s : Store) (i : Nat) (c d : Coupon) (h : findById s i = some c) :
    (save s i d)[i]? = some d := by
  obtain ⟨stored, hs, _⟩ := findById_stored s i c h
  have hi : i < s.length := by
    rcases Nat.lt_or_ge i s.length with hlt | hge
    · exact hlt
    · rw [List.getElem?_eq_none hge] at hs
      cases hs
  simp [save, List.getElem?_set, hi]

theorem stored_save_other (s : Store) (i j : Nat) (d : Coupon) (h : j ≠ i) :
    (save s i d)[j]? = s[j]? := by
  simp [save, List.getElem?_set, Ne.symm h]

theorem findById_save_other (s : Store) (i j : Nat) (d : Coupon) (h : j ≠ i) :
    findById (save s i d) j = findById s j := by
  simp [findById, save, List.getElem?_set, Ne.symm h]

/-! ## Lemmas on code normalisation -/

theorem toNat_ofNat_valid (x : Nat) (h : x < 0xD800 ∨ (0xE000 ≤ x ∧ x < 0x110000)) :
    (Char.ofNat x).toNat = x := by
  have hv : x.isValidChar := by
    rcases h with h | ⟨h1, h2⟩
    · exact Or.inl h
    · exact Or.inr ⟨by omega, h2⟩
  have hlt : x < UInt32.size := by
    rcases h with h | ⟨_, h2⟩ <;> simp [UInt32.size] <;> omega
  simp [Char.ofNat, hv, Char.ofNatAux, Char.toNat, UInt32.toNat]

theorem upperSpecial_fixed :
    (upperSpecial.flatMap (fun e => e.2)).all fixedCode = true := by
  decide!

theorem upperRanges_fixed_0 :
    (((upperRanges.drop 0).take 32).flatMap rangeOutputs).all fixedCode = true := by
  decide!

theorem upperRanges_fixed_1 :
    (((upperRanges.drop 32).take 56).flatMap rangeOutputs).all fixedCode = true := by
  decide!

theorem upperRanges_fixed_2 :
    (((upperRanges.drop 88).take 21).flatMap rangeOutputs).all fixedCode = true := by
  decide!

theorem upperRanges_fixed_3 :
    (((upperRanges.drop 109).take 5).flatMap rangeOutputs).all fixedCode = true := by
  decide!

theorem upperRanges_fixed_4 :
    (((upperRanges.drop 114).take 16).flatMap rangeOutputs).all fixedCode = true := by
  decide!

theorem upperRanges_fixed_5 :
    (((upperRanges.drop 130).take 23).flatMap rangeOutputs).all fixedCode = true := by
  decide!

theorem upperRanges_fixed_6 :
    (((upperRanges.drop 153).take 13).flatMap rangeOutputs).all fixedCode = true := by
  decide!

theorem upperRanges_fixed_7 :
    (((upperRanges.drop 166).take 16).flatMap rangeOutputs).all fixedCode = true := by
  decide!

theorem upperRanges_fixed_8 :
    (((upperRanges.drop 182).take 5).flatMap rangeOutputs).all fixedCode = true := by
  decide!

theorem upperRanges_fixed_9 :
    (((upperRanges.drop 187).take 5).flatMap rangeOutputs).all fixedCode = true := by
  decide!

theorem upperRanges_fixed_10 :
    (((upperRanges.drop 192).take 1).flatMap rangeOutputs).all fixedCode = true := by
  decide!

theorem upperRanges_slices :
    upperRanges =
      (upperRanges.drop 0).take 32 ++
      (upperRanges.drop 32).take 56 ++
      (upperRanges.drop 88).take 21 ++
      (upperRanges.drop 109).take 5 ++
      (upperRanges.drop 114).take 16 ++
      (upperRanges.drop 130).take 23 ++
      (upperRanges.drop 153).take 13 ++
      (upperRanges.drop 166).take 16 ++
      (upperRanges.drop 182).take 5 ++
      (upperRanges.drop 187).take 5 ++
      (upperRanges.drop 192).take 1 := by
  decide!

theorem outputs_fixed : ∀ x ∈ upperOutputs, fixedCode x = true := by
  intro x hx
  rcases List.mem_append.mp hx with h | h
  · exact List.all_eq_true.mp upperSpecial_fixed x h
  · obtain ⟨r, hr, hxr⟩ := List.mem_flatMap.mp h
    rw [upperRanges_slices] at hr
    simp only [List.mem_append, or_assoc] at hr
    rcases hr with h | h | h | h | h | h | h | h | h | h | h
    · exact List.all_eq_true.mp upperRanges_fixed_0 x (List.mem_flatMap.mpr ⟨r, h, hxr⟩)
    · exact List.all_eq_true.mp upperRanges_fixed_1 x (List.mem_flatMap.mpr ⟨r, h, hxr⟩)
    · exact List.all_eq_true.mp upperRanges_fixed_2 x (List.mem_flatMap.mpr ⟨r, h, hxr⟩)
    · exact List.all_eq_true.mp upperRanges_fixed_3 x (List.mem_flatMap.mpr ⟨r, h, hxr⟩)
    · exact List.all_eq_true.mp upperRanges_fixed_4 x (List.mem_flatMap.mpr ⟨r, h, hxr⟩)
    · exact List.all_eq_true.mp upperRanges_fixed_5 x (List.mem_flatMap.mpr ⟨r, h, hxr⟩)
    · exact List.all_eq_true.mp upperRanges_fixed_6 x (List.mem_flatMap.mpr ⟨r, h, hxr⟩)
    · exact List.all_eq_true.mp upperRanges_fixed_7 x (List.mem_flatMap.mpr ⟨r, h, hxr⟩)
    · exact List.all_eq_true.mp upperRanges_fixed_8 x (List.mem_flatMap.mpr ⟨r, h, hxr⟩)
    · exact List.all_eq_true.mp upperRanges_fixed_9 x (List.mem_flatMap.mpr ⟨r, h, hxr⟩)
    · exact List.all_eq_true.mp upperRanges_fixed_10 x (List.mem_flatMap.mpr ⟨r, h, hxr⟩)

theorem lookupSpecial_some (n : Nat) (l : List (Nat × List Nat)) (v : List Nat)
    (h : lookupSpecial n l = some v) : ∀ y ∈ v, y ∈ l.flatMap (fun e => e.2) := by
  induction l with
  | nil => simp [lookupSpecial] at h
  | cons e rest ih =>
    obtain ⟨k, w⟩ := e
    unfold lookupSpecial at h
    intro y hy
    split at h
    · cases h
    · split at h
      · cases h
        simp [hy]
      · have := ih h y hy
        simp only [List.flatMap_cons, List.mem_append]
        exact Or.inr this

theorem lookupRange_some (n : Nat) (l : List (Nat × Nat × Nat × Nat)) (m : Nat)
    (h : lookupRange n l = some m) : m ∈ l.flatMap rangeOutputs := by
  induction l with
  | nil => simp [lookupRange] at h
  | cons r rest ih =>
    obtain ⟨lo, hi, step, target⟩ := r
    unfold lookupRange at h
    simp only [List.flatMap_cons, List.mem_append]
    split at h
    · cases h
    · rename_i hlo
      split at h
      · rename_i hin
        left
        cases h
        simp only [rangeOutputs, List.mem_map, List.mem_range]
        refine ⟨(n - lo) / step, ?_, ?_⟩
        · have : (n - lo) / step ≤ (hi - lo) / step := Nat.div_le_div_right (by omega)
          omega
        · rw [Nat.div_mul_cancel (Nat.dvd_of_mod_eq_zero hin.2)]
      · exact Or.inr (ih h)

theorem upperCode_mem (n y : Nat) (h : y ∈ upperCode n) :
    y ∈ upperOutputs ∨ (y = n ∧ upperCode n = [n]) := by
  unfold upperCode at h ⊢
  cases hs : lookupSpecial n upperSpecial with
  | some v =>
    rw [hs] at h
    left
    exact List.mem_append_left _ (lookupSpecial_some n _ v hs y h)
  | none =>
    rw [hs] at h
    cases hr : lookupRange n upperRanges with
    | some m =>
      rw [hr] at h
      simp only [List.mem_singleton] at h
      left
      rw [h]
      exact List.mem_append_right _ (lookupRange_some n _ m hr)
    | none =>
      rw [hr] at h
      simp only [List.mem_singleton] at h
      right
      exact ⟨h, rfl⟩

theorem fixedCode_spec (x : Nat) (h : fixedCode x = true) :
    isWhiteSpace (Char.ofNat x) = false ∧ toUpperChar (Char.ofNat x) = [Char.ofNat x] := by
  unfold fixedCode at h
  simp only [Bool.and_eq_true, Bool.or_eq_true, decide_eq_true_eq, Bool.not_eq_true'] at h
  obtain ⟨⟨hvalid, hws⟩, hfix⟩ := h
  have hnat := toNat_ofNat_valid x hvalid
  refine ⟨by rw [isWhiteSpace, hnat]; exact hws, ?_⟩
  unfold toUpperChar
  rw [hnat]
  by_cases hx : x < 128
  · rw [if_pos hx] at hfix
    rw [if_pos hx]
    simp only [Bool.not_eq_true', Bool.and_eq_false_imp, decide_eq_true_eq,
      decide_eq_false_iff_not] at hfix
    congr 1
    simp only [Char.toUpper, hnat]
    rw [if_neg]
    intro hc
    exact hfix hc.1 hc.2
  · rw [if_neg hx] at hfix
    rw [if_neg hx]
    simp only [Bool.and_eq_true, Option.isNone_iff_eq_none] at hfix
    simp [upperCode, hfix.1, hfix.2]


theorem toUpper_cases (c : Char) :
    Char.toUpper c = c ∨ (97 ≤ c.toNat ∧ c.toNat ≤ 122 ∧ (Char.toUpper c).toNat = c.toNat - 32) := by
  by_cases h : c.toNat ≥ 97 ∧ c.toNat ≤ 122
  · right
    refine ⟨h.1, h.2, ?_⟩
    have hc : c = Char.ofNat c.toNat := (Char.ofNat_toNat c).symm
    obtain ⟨h1, h2⟩ := h
    generalize c.toNat = n at hc h1 h2
    subst hc
    interval_cases n <;> decide
  · left
    simp only [Char.toUpper]
    rw [if_neg h]

theorem isWhiteSpaceCode_letter (n : Nat) (h1 : 65 ≤ n) (h2 : n ≤ 122) :
    isWhiteSpaceCode n = false := by
  unfold isWhiteSpaceCode
  simp only [Bool.or_eq_false_iff, Bool.and_eq_false_imp, decide_eq_false_iff_not,
    decide_eq_true_eq]
  omega

theorem isWhiteSpace_toUpper (c : Char) : isWhiteSpace (Char.toUpper c) = isWhiteSpace c := by
  rcases toUpper_cases c with h | ⟨h1, h2, h3⟩
  · rw [h]
  · unfold isWhiteSpace
    rw [isWhiteSpaceCode_letter _ (by omega) (by omega),
      isWhiteSpaceCode_letter _ (by omega) (by omega)]

theorem toUpper_toUpper (c : Char) : Char.toUpper (Char.toUpper c) = Char.toUpper c := by
  rcases toUpper_cases c with h | ⟨h1, h2, h3⟩
  · rw [h, h]
  · rcases toUpper_cases (Char.toUpper c) with h | ⟨h4, _, _⟩
    · exact h
    · omega

theorem toNat_toUpper_lt (c : Char) (h : c.toNat < 128) : (Char.toUpper c).toNat < 128 := by
  rcases toUpper_cases c with h1 | ⟨_, _, h3⟩
  · rw [h1]
    exact h
  · omega

theorem upperSpecial_nonempty : ∀ e ∈ upperSpecial, e.2 ≠ [] := by
  decide!

theorem lookupSpecial_mem (n : Nat) (l : List (Nat × List Nat)) (v : List Nat)
    (h : lookupSpecial n l = some v) : (n, v) ∈ l := by
  induction l with
  | nil => simp [lookupSpecial] at h
  | cons e rest ih =>
    obtain ⟨k, w⟩ := e
    unfold lookupSpecial at h
    split at h
    · cases h
    · split at h
      · rename_i hk
        cases h
        simp [hk]
      · exact List.mem_cons_of_mem _ (ih h)

theorem upperCode_ne_nil (n : Nat) : upperCode n ≠ [] := by
  unfold upperCode
  cases hs : lookupSpecial n upperSpecial with
  | some v => exact upperSpecial_nonempty (n, v) (lookupSpecial_mem n _ v hs)
  | none =>
    cases hr : lookupRange n upperRanges <;> simp

theorem toUpperChar_ne_nil (c : Char) : toUpperChar c ≠ [] := by
  unfold toUpperChar
  split
  · simp
  · simpa using upperCode_ne_nil c.toNat

/-- The characters of an upper-case form are their own upper-case form, and
none of them is white space unless the character itself is. -/
theorem toUpperChar_mem (c x : Char) (h : x ∈ toUpperChar c) :
    toUpperChar x = [x] ∧ (isWhiteSpace c = false → isWhiteSpace x = false) := by
  unfold toUpperChar at h
  split at h
  · rename_i hc
    simp only [List.mem_singleton] at h
    subst h
    refine ⟨?_, fun hw => by rw [isWhiteSpace_toUpper, hw]⟩
    unfold toUpperChar
    rw [if_pos (toNat_toUpper_lt c hc), toUpper_toUpper]
  · rename_i hc
    simp only [List.mem_map] at h
    obtain ⟨y, hy, rfl⟩ := h
    rcases upperCode_mem c.toNat y hy with hout | ⟨hyn, hcode⟩
    · have hfix := fixedCode_spec y (outputs_fixed y hout)
      exact ⟨hfix.2, fun _ => hfix.1⟩
    · subst hyn
      rw [Char.ofNat_toNat]
      refine ⟨?_, fun hw => hw⟩
      unfold toUpperChar
      rw [if_neg hc, hcode]
      simp

theorem upperCode_whiteSpace (n : Nat) (hn : 128 ≤ n) (h : isWhiteSpaceCode n = true) :
    upperCode n = [n] := by
  unfold isWhiteSpaceCode at h
  simp only [Bool.or_eq_true, Bool.and_eq_true, decide_eq_true_eq] at h
  have hcases : n = 0xA0 ∨ n = 0x1680 ∨ (0x2000 ≤ n ∧ n ≤ 0x200A) ∨ n = 0x2028 ∨ n = 0x2029 ∨
      n = 0x202F ∨ n = 0x205F ∨ n = 0x3000 ∨ n = 0xFEFF := by omega
  rcases hcases with h | h | ⟨h1, h2⟩ | h | h | h | h | h | h
  · subst h; decide!
  · subst h; decide!
  · interval_cases n <;> decide!
  · subst h; decide!
  · subst h; decide!
  · subst h; decide!
  · subst h; decide!
  · subst h; decide!
  · subst h; decide!

theorem toUpperChar_whiteSpace (c : Char) (h : isWhiteSpace c = true) : toUpperChar c = [c] := by
  unfold toUpperChar
  split
  · rcases toUpper_cases c with h1 | ⟨h1, h2, _⟩
    · rw [h1]
    · unfold isWhiteSpace at h
      rw [isWhiteSpaceCode_letter _ (by omega) (by omega)] at h
      cases h
  · rename_i hc
    rw [upperCode_whiteSpace c.toNat (by omega) h]
    simp

theorem flatMap_toUpperChar_fixed (l : List Char) (h : ∀ x ∈ l, toUpperChar x = [x]) :
    l.flatMap toUpperChar = l := by
  induction l with
  | nil => rfl
  | cons a t ih =>
    rw [List.flatMap_cons, h a (List.mem_cons_self _ _),
      ih (fun x hx => h x (List.mem_cons_of_mem _ hx))]
    rfl

theorem flatMap_flatMap_toUpperChar (l : List Char) :
    (l.flatMap toUpperChar).flatMap toUpperChar = l.flatMap toUpperChar := by
  apply flatMap_toUpperChar_fixed
  intro x hx
  obtain ⟨c, _, hc⟩ := List.mem_flatMap.mp hx
  exact (toUpperChar_mem c x hc).1

theorem dropWhile_flatMap_toUpperChar (l : List Char) :
    (l.flatMap toUpperChar).dropWhile isWhiteSpace =
      (l.dropWhile isWhiteSpace).flatMap toUpperChar := by
  induction l with
  | nil => rfl
  | cons a t ih =>
    cases hw : isWhiteSpace a with
    | true =>
      rw [List.flatMap_cons, toUpperChar_whiteSpace a hw]
      simp only [List.singleton_append, List.dropWhile_cons, hw, if_true]
      exact ih
    | false =>
      simp only [List.dropWhile_cons, hw, Bool.false_eq_true, if_false]
      rw [List.flatMap_cons]
      cases hf : toUpperChar a with
      | nil => exact absurd hf (toUpperChar_ne_nil a)
      | cons x xs =>
        have hx : isWhiteSpace x = false :=
          (toUpperChar_mem a x (by rw [hf]; exact List.mem_cons_self _ _)).2 hw
        simp only [List.cons_append, List.dropWhile_cons, hx, Bool.false_eq_true, if_false]

theorem rdropWhile_flatMap_toUpperChar (l : List Char) :
    (l.flatMap toUpperChar).rdropWhile isWhiteSpace =
      (l.rdropWhile isWhiteSpace).flatMap toUpperChar := by
  induction l using List.reverseRecOn with
  | nil => rfl
  | append_singleton t a ih =>
    cases hw : isWhiteSpace a with
    | true =>
      rw [List.flatMap_append, List.rdropWhile_concat_pos _ _ _ hw]
      simp only [List.flatMap_cons, List.flatMap_nil, List.append_nil,
        toUpperChar_whiteSpace a hw]
      rw [List.rdropWhile_concat_pos _ _ _ hw]
      exact ih
    | false =>
      have hw' : ¬ isWhiteSpace a = true := by simp [hw]
      rw [List.rdropWhile_concat_neg _ _ _ hw', List.flatMap_append]
      simp only [List.flatMap_cons, List.flatMap_nil, List.append_nil]
      rcases List.eq_nil_or_concat (toUpperChar a) with hf | ⟨ys, y, hf⟩
      · exact absurd hf (toUpperChar_ne_nil a)
      · have hy : isWhiteSpace y = false :=
          (toUpperChar_mem a y (by rw [hf]; simp)).2 hw
        have hy' : ¬ isWhiteSpace y = true := by simp [hy]
        rw [hf, List.concat_eq_append, ← List.append_assoc,
          List.rdropWhile_concat_neg _ _ _ hy']

theorem dropWhile_rdropWhile_of_trimmed (l : List Char)
    (h : l.dropWhile isWhiteSpace = l) :
    (l.rdropWhile isWhiteSpace).dropWhile isWhiteSpace = l.rdropWhile isWhiteSpace := by
  have hpre : l.rdropWhile isWhiteSpace <+: l := List.rdropWhile_prefix isWhiteSpace l
  cases hr : l.rdropWhile isWhiteSpace with
  | nil => rfl
  | cons a t =>
    rw [hr] at hpre
    obtain ⟨u, hu⟩ := hpre
    have ha : isWhiteSpace a = false := by
      cases hws : isWhiteSpace a with
      | false => rfl
      | true =>
        exfalso
        rw [← hu] at h
        simp only [List.cons_append, List.dropWhile_cons, hws, if_true] at h
        have hlen := congrArg List.length h
        have hle := (List.dropWhile_sublist (l := t ++ u) isWhiteSpace).length_le
        simp only [List.length_cons] at hlen
        omega
    simp [List.dropWhile_cons, ha]

theorem toUpperCase_toUpperCase (s : String) : toUpperCase (toUpperCase s) = toUpperCase s := by
  simp only [toUpperCase, flatMap_flatMap_toUpperChar]

theorem trim_toUpperCase (s : String) : trim (toUpperCase s) = toUpperCase (trim s) := by
  simp only [trim, toUpperCase, dropWhile_flatMap_toUpperChar, rdropWhile_flatMap_toUpperChar]

theorem trim_trim (s : String) : trim (trim s) = trim s := by
  simp only [trim]
  rw [dropWhile_rdropWhile_of_trimmed _ (List.dropWhile_idempotent _ _),
    List.rdropWhile_idempotent]

/-- The normal form of a code is a fixed point of the normalisation. -/
theorem formatted_code_fixed (code : String) :
    trim (toUpperCase (trim (toUpperCase code))) = trim (toUpperCase code) := by
  rw [trim_toUpperCase (trim (toUpperCase code)), trim_trim, trim_toUpperCase,
    toUpperCase_toUpperCase]

/-! ## Redemption: amounts -/

theorem useCoupon_success (s : Store) (codeParam : String) (now : Int) (id : Nat)
    (coupon : Coupon) (hcode : codeParam ≠ "")
    (hfind : findOne s (trim (toUpperCase codeParam)) = some (id, coupon))
    (hactive : coupon.active = true) (hexp : isExpired coupon now = false) :
    useCoupon s codeParam now =
      (save s id { coupon with
          usageCount := coupon.usageCount.add 1
          totalDiscount := coupon.totalDiscount.add (discountAmount coupon.amount coupon.discount)
          usedAt := some now },
        .used { coupon with
          usageCount := coupon.usageCount.add 1
          totalDiscount := coupon.totalDiscount.add (discountAmount coupon.amount coupon.discount)
          usedAt := some now }
          coupon.amount (discountAmount coupon.amount coupon.discount)
          (coupon.amount - discountAmount coupon.amount coupon.discount)) := by
  simp [useCoupon, hcode, hfind, hactive, hexp, parseFloat]

theorem discountAmount_eq (a d : ℚ) :
    discountAmount a d = min ((a * d / 100) * 20 / 100) 500 := by
  simp [discountAmount, baseDiscountAmount, maxDiscount, maxAllowedDiscount]

/-- C1. For a coupon that the code names and that is active and not expired,
redeem answers with `originalAmount = a`, `discountAmount =
min ((a * d / 100) * 20 / 100) 500` and `orderAmountAfterDiscount = a -
discountAmount`, where `a` and `d` are the amount and the discount of the
coupon; for `a = 1000` and `d = 25` the base discount is 250 and the answer
carries 1000, 50 and 950. -/
theorem redeem_returns_discounted_amounts (s : Store) (codeParam : String) (now : Int)
    (id : Nat) (coupon : Coupon) (hcode : codeParam ≠ "")
    (hfind : findOne s (trim (toUpperCase codeParam)) = some (id, coupon))
    (hactive : coupon.active = true) (hexp : isExpired coupon now = false) :
    (∃ c, (useCoupon s codeParam now).2 =
        .used c coupon.amount (min ((coupon.amount * coupon.discount / 100) * 20 / 100) 500)
          (coupon.amount - min ((coupon.amount * coupon.discount / 100) * 20 / 100) 500)) ∧
    (coupon.amount = 1000 → coupon.discount = 25 →
      baseDiscountAmount coupon.amount coupon.discount = 250 ∧
      ∃ c, (useCoupon s codeParam now).2 = .used c 1000 50 950) := by
  rw [useCoupon_success s codeParam now id coupon hcode hfind hactive hexp, discountAmount_eq]
  refine ⟨⟨_, rfl⟩, ?_⟩
  intro ha hd
  have hcap : min ((1000 : ℚ) * 25 / 100 * 20 / 100) 500 = 50 := by norm_num
  have hrest : (1000 : ℚ) - 50 = 950 := by norm_num
  rw [ha, hd, hcap, hrest]
  exact ⟨by norm_num [baseDiscountAmount], _, rfl⟩

theorem redeem_returns_discounted_amounts_witness :
    ("save10" ≠ "" ∧ findOne [sampleCoupon] (trim (toUpperCase "save10")) = some (0, sampleCoupon) ∧
      sampleCoupon.active = true ∧ isExpired sampleCoupon 5 = false) ∧
    ∃ c, (useCoupon [sampleCoupon] "save10" 5).2 = .used c 1000 50 950 :=
  ⟨⟨by decide, by decide, by decide, by decide⟩,
    ((redeem_returns_discounted_amounts [sampleCoupon] "save10" 5 0 sampleCoupon (by decide)
      (by decide) (by decide) (by decide)).2 rfl rfl).2⟩

/-! ## Redemption: the cap -/

theorem useCoupon_cases (s : Store) (codeParam : String) (now : Int) :
    (∃ status message, useCoupon s codeParam now = (s, .error status message) ∧ status ≠ 200) ∨
    (∃ id coupon, codeParam ≠ "" ∧
      findOne s (trim (toUpperCase codeParam)) = some (id, coupon) ∧
      coupon.active = true ∧ isExpired coupon now = false) := by
  by_cases hcode : codeParam = ""
  · left
    exact ⟨400, "Validation failed", by simp [useCoupon, hcode], by decide⟩
  · cases hfind : findOne s (trim (toUpperCase codeParam)) with
    | none =>
      left
      exact ⟨404, "Coupon not found", by simp [useCoupon, hcode, hfind], by decide⟩
    | some p =>
      obtain ⟨id, coupon⟩ := p
      cases hactive : coupon.active with
      | false =>
        left
        exact ⟨400, "Coupon is inactive", by simp [useCoupon, hcode, hfind, hactive], by decide⟩
      | true =>
        cases hexp : isExpired coupon now with
        | true =>
          left
          exact ⟨400, "Coupon expired", by simp [useCoupon, hcode, hfind, hactive, hexp],
            by decide⟩
        | false =>
          right
          exact ⟨id, coupon, hcode, rfl, hactive, hexp⟩

theorem discountAmount_le_cap (a d : ℚ) : discountAmount a d ≤ 500 := by
  rw [discountAmount_eq]
  exact min_le_right _ _

/-- C2. Whenever redeem succeeds, the `discountAmount` of the answer is at
most 500, whatever the amount and the discount of the coupon are; when the
coupon has amount 1000000 and discount 100 it is exactly 500. -/
theorem redeem_discount_capped (s : Store) (codeParam : String) (now : Int) (c : Coupon)
    (a d r : ℚ) (h : (useCoupon s codeParam now).2 = .used c a d r) :
    d ≤ 500 ∧ c.amount = a ∧ (c.amount = 1000000 → c.discount = 100 → d = 500) := by
  rcases useCoupon_cases s codeParam now with ⟨st, msg, hfail, _⟩ | ⟨id, old, hcode, hfind, hact, hexp⟩
  · rw [hfail] at h
    cases h
  · rw [useCoupon_success s codeParam now id old hcode hfind hact hexp] at h
    simp only [Response.used.injEq] at h
    obtain ⟨rfl, rfl, rfl, rfl⟩ := h
    refine ⟨discountAmount_le_cap _ _, rfl, ?_⟩
    intro ha hd
    simp only at ha hd
    rw [ha, hd, discountAmount_eq]
    norm_num

theorem useCoupon_largeCoupon :
    (useCoupon [largeCoupon] "big" 7).2 =
      .used { largeCoupon with usageCount := .num 1, totalDiscount := .num 500,
                               usedAt := some 7 } 1000000 500 999500 := by
  rw [useCoupon_success [largeCoupon] "big" 7 0 largeCoupon (by decide) (by decide) (by decide)
    (by decide)]
  simp only [largeCoupon, sampleCoupon, JsNumber.add, discountAmount_eq]
  norm_num

theorem redeem_discount_capped_witness :
    (useCoupon [largeCoupon] "big" 7).2 =
        .used { largeCoupon with usageCount := .num 1, totalDiscount := .num 500,
                                 usedAt := some 7 } 1000000 500 999500 ∧
      (500 : ℚ) ≤ 500 :=
  ⟨useCoupon_largeCoupon, (redeem_discount_capped [largeCoupon] "big" 7
    { largeCoupon with usageCount := .num 1, totalDiscount := .num 500, usedAt := some 7 }
    1000000 500 999500 useCoupon_largeCoupon).1⟩

/-! ## Rejections: expired and inactive coupons -/

theorem isExpired_of_past (coupon : Coupon) (now t : Int) (ht : coupon.expiresAt = some t)
    (hpast : t < now) : isExpired coupon now = true := by
  simp [isExpired, ht, hpast]

/-- C3, as the code has it. A coupon whose `expiresAt` is in the past is
rejected with status 400 by validate and by redeem, and redeem leaves the store
as it was: the message is `Coupon expired` when the coupon is active and
`Coupon is inactive` when it is not. -/
theorem expired_coupon_rejected (s : Store) (codeParam : String) (now : Int) (id : Nat)
    (coupon : Coupon) (t : Int) (hcode : codeParam ≠ "")
    (hfind : findOne s (trim (toUpperCase codeParam)) = some (id, coupon))
    (ht : coupon.expiresAt = some t) (hpast : t < now) :
    (coupon.active = true →
      validateCoupon s codeParam now = .error 400 "Coupon expired" ∧
      useCoupon s codeParam now = (s, .error 400 "Coupon expired")) ∧
    (coupon.active = false →
      validateCoupon s codeParam now = .error 400 "Coupon is inactive" ∧
      useCoupon s codeParam now = (s, .error 400 "Coupon is inactive")) := by
  have hexp := isExpired_of_past coupon now t ht hpast
  constructor
  · intro hactive
    simp [validateCoupon, useCoupon, hcode, hfind, hactive, hexp]
  · intro hactive
    simp [validateCoupon, useCoupon, hcode, hfind, hactive]

theorem expired_coupon_rejected_witness :
    validateCoupon [expiredCoupon] "old" 200 = .error 400 "Coupon expired" ∧
    useCoupon [expiredCoupon] "old" 200 = ([expiredCoupon], .error 400 "Coupon expired") :=
  (expired_coupon_rejected [expiredCoupon] "old" 200 0 expiredCoupon 100 (by decide) (by decide)
    (by decide) (by decide)).1 (by decide)

/-- C3, as stated, fails. The coupon `OFF` expired at instant 100 and is not
active: at instant 200 validate and redeem both answer `Coupon is inactive`,
not `Coupon expired`. -/
theorem expired_inactive_coupon_reported_inactive :
    findOne [expiredInactiveCoupon] (trim (toUpperCase "off")) = some (0, expiredInactiveCoupon) ∧
    expiredInactiveCoupon.expiresAt = some 100 ∧ (100 : Int) < 200 ∧
    expiredInactiveCoupon.active = false ∧
    validateCoupon [expiredInactiveCoupon] "off" 200 = .error 400 "Coupon is inactive" ∧
    validateCoupon [expiredInactiveCoupon] "off" 200 ≠ .error 400 "Coupon expired" ∧
    (useCoupon [expiredInactiveCoupon] "off" 200).2 = .error 400 "Coupon is inactive" ∧
    (useCoupon [expiredInactiveCoupon] "off" 200).2 ≠ .error 400 "Coupon expired" := by
  decide

/-- C8. An existing coupon with `active = false` is rejected by validate and
by redeem with status 400 and the message `Coupon is inactive`, whatever its
`expiresAt` is, and redeem leaves the store as it was. -/
theorem inactive_coupon_rejected (s : Store) (codeParam : String) (now : Int) (id : Nat)
    (coupon : Coupon) (hcode : codeParam ≠ "")
    (hfind : findOne s (trim (toUpperCase codeParam)) = some (id, coupon))
    (hinactive : coupon.active = false) :
    validateCoupon s codeParam now = .error 400 "Coupon is inactive" ∧
    (useCoupon s codeParam now).2 = .error 400 "Coupon is inactive" ∧
    (useCoupon s codeParam now).1 = s := by
  simp [validateCoupon, useCoupon, hcode, hfind, hinactive]

theorem inactive_coupon_rejected_witness :
    validateCoupon [inactiveCoupon] "paused" 200 = .error 400 "Coupon is inactive" ∧
    (useCoupon [inactiveCoupon] "paused" 200).2 = .error 400 "Coupon is inactive" ∧
    (useCoupon [inactiveCoupon] "paused" 200).1 = [inactiveCoupon] :=
  inactive_coupon_rejected [inactiveCoupon] "paused" 200 0 inactiveCoupon (by decide) (by decide)
    (by decide)

/-! ## Validation of a valid coupon -/

/-- C4, what the code does. For a coupon that the code names and that is
active and not expired, validate ends in the error response with status 500
and the message of the ReferenceError; it never answers 200. -/
theorem validate_valid_coupon_errors (s : Store) (codeParam : String) (now : Int) (id : Nat)
    (coupon : Coupon) (hcode : codeParam ≠ "")
    (hfind : findOne s (trim (toUpperCase codeParam)) = some (id, coupon))
    (hactive : coupon.active = true) (hexp : isExpired coupon now = false) :
    validateCoupon s codeParam now = .error 500 "discountAmount is not defined" ∧
    (validateCoupon s codeParam now).status ≠ 200 := by
  have h : validateCoupon s codeParam now = .error 500 "discountAmount is not defined" := by
    simp [validateCoupon, hcode, hfind, hactive, hexp, validateScopeDiscountAmount]
  rw [h]
  exact ⟨rfl, by decide⟩

theorem validate_valid_coupon_errors_witness :
    (findOne [sampleCoupon] (trim (toUpperCase "save10")) = some (0, sampleCoupon) ∧
      sampleCoupon.active = true ∧ isExpired sampleCoupon 5 = false) ∧
    validateCoupon [sampleCoupon] "save10" 5 = .error 500 "discountAmount is not defined" ∧
    (validateCoupon [sampleCoupon] "save10" 5).status ≠ 200 :=
  ⟨⟨by decide, by decide, by decide⟩,
    validate_valid_coupon_errors [sampleCoupon] "save10" 5 0 sampleCoupon (by decide) (by decide)
      (by decide) (by decide)⟩

/-! ## Creation -/

theorem findOneFrom_append_none (code : String) (l : List Coupon) (k : Nat) (c : Coupon)
    (h : findOneFrom code l k = none) :
    findOneFrom code (l ++ [c]) k =
      if c.code = code then some (k + l.length, hydrate c) else none := by
  induction l generalizing k with
  | nil => simp [findOneFrom]
  | cons d rest ih =>
    unfold findOneFrom at h
    split at h
    · cases h
    · rename_i hd
      have hlen : k + 1 + rest.length = k + (rest.length + 1) := by omega
      have hstep := ih (k + 1) h
      rw [hlen] at hstep
      simp only [List.cons_append, findOneFrom, hd, if_false, List.length_cons]
      exact hstep

theorem findOne_append_new (s : Store) (c : Coupon) (h : findOne s c.code = none)
    (hc : hydrate c = c) : findOne (s ++ [c]) c.code = some (s.length, c) := by
  unfold findOne at h ⊢
  rw [findOneFrom_append_none c.code s 0 c h]
  simp [hc]

theorem hydrate_of_num (c : Coupon) (u t : ℚ) (hu : c.usageCount = .num u)
    (ht : c.totalDiscount = .num t) : hydrate c = c :=
  hydrate_of_defined c (by rw [hu]; simp) (by rw [ht]; simp)

theorem couponSchema_some (castNumber : String → Option ℚ) (code : String) (name : Option String)
    (amount : ℚ) (discount : String) (expiresAt : Option Int) (category : List String)
    (c : Coupon) (h : couponSchema castNumber code name amount discount expiresAt category = some c) :
    c.code = codeSetter code ∧ c.code ≠ "" ∧ c.active = true ∧ c.amount = amount ∧
    0 ≤ c.amount ∧ castNumber discount = some c.discount ∧ 0 ≤ c.discount ∧ c.discount ≤ 100 ∧
    c.expiresAt = expiresAt ∧ c.usageCount = .num 0 ∧ c.totalDiscount = .num 0 := by
  unfold couponSchema at h
  split at h
  · rename_i n d hn hd
    split at h
    · rename_i hok
      simp only [Option.some.injEq] at h
      subst h
      exact ⟨rfl, hok.2.1, rfl, rfl, hok.2.2.1, hd, hok.2.2.2.1, hok.2.2.2.2, rfl, rfl, rfl⟩
    · cases h
  · cases h

theorem createCoupon_cases (castNumber : String → Option ℚ) (s : Store) (b : CreateBody)
    (now : Int) :
    (∃ status message, createCoupon castNumber s b now = (s, .error status message) ∧
      status ≠ 201) ∨
    (∃ code c, b.code = some code ∧ createValidation b = true ∧
      isValidExpiryDate b.expiresAt now = true ∧
      findOne s (trim (toUpperCase code)) = none ∧
      couponSchema castNumber (trim (toUpperCase code)) ((b.name.map trim).map trim) b.amount
        (trim (trim b.discount)) b.expiresAt.join (b.category.getD []) = some c ∧
      findOne s c.code = none ∧
      createCoupon castNumber s b now = (s ++ [c], .created c)) := by
  cases hval : createValidation b with
  | false =>
    left
    exact ⟨400, "Validation failed", by simp [createCoupon, hval], by decide⟩
  | true =>
    cases hc : b.code with
    | none =>
      left
      exact ⟨500, "Cannot read properties of undefined", by simp [createCoupon, hval, hc],
        by decide⟩
    | some code =>
      cases hexp : isValidExpiryDate b.expiresAt now with
      | false =>
        left
        exact ⟨400, "Expiry date must be in the future", by simp [createCoupon, hval, hc, hexp],
          by decide⟩
      | true =>
        cases hfind : findOne s (trim (toUpperCase code)) with
        | some p =>
          left
          exact ⟨409, "Coupon with this code already exists",
            by simp [createCoupon, hval, hc, hexp, hfind], by decide⟩
        | none =>
          cases hsch : couponSchema castNumber (trim (toUpperCase code))
              ((b.name.map trim).map trim) b.amount (trim (trim b.discount)) b.expiresAt.join
              (b.category.getD []) with
          | none =>
            left
            refine ⟨500, "Coupon validation failed", ?_, by decide⟩
            simp only [createCoupon, hval, hc, hexp, hfind, Bool.not_true, Bool.false_eq_true,
              if_false, hsch]
          | some c =>
            cases hdup : findOne s c.code with
            | some p =>
              left
              refine ⟨500, "E11000 duplicate key error", ?_, by decide⟩
              simp only [createCoupon, hval, hc, hexp, hfind, Bool.not_true, Bool.false_eq_true,
                if_false, hsch, hdup]
            | none =>
              right
              refine ⟨code, c, rfl, rfl, rfl, hfind, hsch, hdup, ?_⟩
              simp only [createCoupon, hval, hc, hexp, hfind, Bool.not_true, Bool.false_eq_true,
                if_false, hsch, hdup]

theorem createCoupon_created (castNumber : String → Option ℚ) (s s' : Store) (b : CreateBody)
    (now : Int) (c : Coupon) (h : createCoupon castNumber s b now = (s', .created c)) :
    ∃ code, b.code = some code ∧ c.code = trim (toUpperCase code) ∧ s' = s ++ [c] ∧
      findOne s c.code = none ∧ c.code ≠ "" ∧ c.active = true ∧ 0 ≤ c.amount ∧
      0 ≤ c.discount ∧ c.usageCount = .num 0 ∧ c.totalDiscount = .num 0 := by
  rcases createCoupon_cases castNumber s b now with
    ⟨st, msg, hfail, _⟩ | ⟨code, d, hcode, _, _, _, hsch, hdup, hok⟩
  · rw [hfail] at h
    cases h
  · rw [hok] at h
    simp only [Prod.mk.injEq, Response.created.injEq] at h
    obtain ⟨rfl, rfl⟩ := h
    obtain ⟨h1, h2, h3, _, h5, _, h7, _, _, h10, h11⟩ := couponSchema_some _ _ _ _ _ _ _ _ hsch
    rw [codeSetter, formatted_code_fixed] at h1
    exact ⟨code, hcode, h1, rfl, hdup, h2, h3, h5, h7, h10, h11⟩

theorem createCoupon_status_created (castNumber : String → Option ℚ) (s : Store)
    (b : CreateBody) (now : Int) (h : (createCoupon castNumber s b now).2.status = 201) :
    ∃ c, createCoupon castNumber s b now = (s ++ [c], .created c) := by
  rcases createCoupon_cases castNumber s b now with
    ⟨st, msg, hfail, hst⟩ | ⟨code, d, _, _, _, _, _, _, hok⟩
  · rw [hfail] at h
    exact absurd h hst
  · exact ⟨d, hok⟩

theorem createCoupon_sampleBody :
    createCoupon sampleCast [] sampleBody 0 = ([sampleCoupon], .created sampleCoupon) := by
  have hval : createValidation sampleBody = true := by
    simp only [createValidation, sampleBody]
    have h1 : trim "25" ≠ "" := by decide
    simp [h1]
  have hc : sampleBody.code = some " save10 " := rfl
  have hcode : trim (toUpperCase " save10 ") = "SAVE10" := by decide
  have hdisc : trim (trim "25") = "25" := by decide
  have hname : trim (trim "Launch") = "Launch" := by decide
  have hset : codeSetter "SAVE10" = "SAVE10" := by decide
  simp only [createCoupon, hval, hc, Bool.not_true, Bool.false_eq_true, if_false, hcode]
  have hn1 : ¬ "Launch" = "" := by decide
  have hn2 : ¬ "SAVE10" = "" := by decide
  norm_num [sampleBody, isValidExpiryDate, findOne, findOneFrom, couponSchema, sampleCast, hdisc,
    hname, hset, sampleCoupon, hn1, hn2]

theorem createCoupon_sharpBody :
    createCoupon sampleCast [] sharpBody 0 = ([sharpCoupon], .created sharpCoupon) := by
  have hval : createValidation sharpBody = true := by
    simp only [createValidation, sharpBody, sampleBody]
    have h1 : trim "25" ≠ "" := by decide
    simp [h1]
  have hc : sharpBody.code = some "straße" := rfl
  have hcode : trim (toUpperCase "straße") = "STRASSE" := by decide
  have hdisc : trim (trim "25") = "25" := by decide
  have hname : trim (trim "Launch") = "Launch" := by decide
  have hset : codeSetter "STRASSE" = "STRASSE" := by decide
  simp only [createCoupon, hval, hc, Bool.not_true, Bool.false_eq_true, if_false, hcode]
  have hn1 : ¬ "Launch" = "" := by decide
  have hn2 : ¬ "STRASSE" = "" := by decide
  norm_num [sharpBody, sampleBody, isValidExpiryDate, findOne, findOneFrom, couponSchema,
    sampleCast, hdisc, hname, hset, sharpCoupon, sampleCoupon, hn1, hn2]

/-- C7. When create stores a coupon, its code is the trimmed upper-case form
of the code of the request; and when a create request has succeeded, a
request whose code has the same trimmed upper-case form and whose other
fields pass validation is answered with status 409 and stores nothing. -/
theorem create_normalises_code (castNumber : String → Option ℚ) (s : Store) (b₁ : CreateBody)
    (now₁ : Int) :
    (∀ s' c, createCoupon castNumber s b₁ now₁ = (s', .created c) →
      ∃ code, b₁.code = some code ∧ c.code = trim (toUpperCase code) ∧ s' = s ++ [c]) ∧
    (∀ code₁ code₂ b₂ now₂, b₁.code = some code₁ → b₂.code = some code₂ →
      trim (toUpperCase code₁) = trim (toUpperCase code₂) →
      (createCoupon castNumber s b₁ now₁).2.status = 201 →
      createValidation b₂ = true → isValidExpiryDate b₂.expiresAt now₂ = true →
      createCoupon castNumber (createCoupon castNumber s b₁ now₁).1 b₂ now₂ =
        ((createCoupon castNumber s b₁ now₁).1,
          .error 409 "Coupon with this code already exists")) := by
  constructor
  · intro s' c h
    obtain ⟨code, hcode, hc, hs, _⟩ := createCoupon_created castNumber s s' b₁ now₁ c h
    exact ⟨code, hcode, hc, hs⟩
  · intro code₁ code₂ b₂ now₂ h₁ h₂ hsame hst hval hexp
    obtain ⟨c, hok⟩ := createCoupon_status_created castNumber s b₁ now₁ hst
    obtain ⟨code, hcode, hc, _, hnone, _, _, _, _, hu, ht⟩ :=
      createCoupon_created castNumber s _ b₁ now₁ c hok
    rw [h₁] at hcode
    cases hcode
    have hfound : findOne (s ++ [c]) (trim (toUpperCase code₂)) = some (s.length, c) := by
      rw [← hsame, ← hc]
      exact findOne_append_new s c hnone (hydrate_of_num c 0 0 hu ht)
    rw [hok]
    simp only [createCoupon, hval, h₂, hexp, hfound, Bool.not_true, Bool.false_eq_true, if_false]

theorem create_normalises_code_witness :
    ((createCoupon sampleCast [] sampleBody 0).1 = [sampleCoupon] ∧
      sampleCoupon.code = trim (toUpperCase " save10 ") ∧
      createCoupon sampleCast (createCoupon sampleCast [] sampleBody 0).1 sampleBodyUpper 1 =
        ((createCoupon sampleCast [] sampleBody 0).1,
          .error 409 "Coupon with this code already exists")) ∧
    ((createCoupon sampleCast [] sharpBody 0).1 = [sharpCoupon] ∧
      sharpCoupon.code = "STRASSE" ∧ trim (toUpperCase "straße") = "STRASSE" ∧
      createCoupon sampleCast (createCoupon sampleCast [] sharpBody 0).1 sharpBodyUpper 1 =
        ((createCoupon sampleCast [] sharpBody 0).1,
          .error 409 "Coupon with this code already exists")) :=
  ⟨⟨by rw [createCoupon_sampleBody], by decide,
    (create_normalises_code sampleCast [] sampleBody 0).2 " save10 " "SAVE10" sampleBodyUpper 1
      rfl rfl (by decide) (by rw [createCoupon_sampleBody]; rfl)
      (by rw [createValidation]; simp only [sampleBodyUpper, sampleBody]
          have h1 : trim "25" ≠ "" := by decide
          simp [h1])
      rfl⟩,
   ⟨by rw [createCoupon_sharpBody], rfl, by decide,
    (create_normalises_code sampleCast [] sharpBody 0).2 "straße" " STRASSE " sharpBodyUpper 1
      rfl rfl (by decide) (by rw [createCoupon_sharpBody]; rfl)
      (by rw [createValidation]; simp only [sharpBodyUpper, sampleBody]
          have h1 : trim "25" ≠ "" := by decide
          simp [h1])
      rfl⟩⟩

/-! ## Redemption: effect on the store -/

theorem save_same (s : Store) (i : Nat) (c : Coupon) (h : s[i]? = some c) :
    save s i c = s := by
  apply List.ext_getElem?
  intro j
  simp only [save, List.getElem?_set]
  split
  · rename_i hij
    subst hij
    split
    · exact h.symm
    · rename_i hlt
      rw [List.getElem?_eq_none (by omega)]
  · rfl

theorem save_save (s : Store) (i : Nat) (c d : Coupon) : save (save s i c) i d = save s i d := by
  simp [save, List.set_set]

theorem add_defined (x : JsNumber) (y : ℚ) : x.add y ≠ .undefined := by
  cases x <;> simp [JsNumber.add]

theorem useCoupon_used (s : Store) (codeParam : String) (now : Int) (c : Coupon) (a d r : ℚ)
    (h : (useCoupon s codeParam now).2 = .used c a d r) :
    ∃ id old, codeParam ≠ "" ∧ findOne s (trim (toUpperCase codeParam)) = some (id, old) ∧
      old.active = true ∧ isExpired old now = false ∧
      d = discountAmount old.amount old.discount ∧ a = old.amount ∧ r = old.amount - d ∧
      c = { old with usageCount := old.usageCount.add 1
                     totalDiscount := old.totalDiscount.add d
                     usedAt := some now } ∧
      (useCoupon s codeParam now).1 = save s id c := by
  rcases useCoupon_cases s codeParam now with
    ⟨st, msg, hfail, _⟩ | ⟨id, old, hcode, hfind, hact, hexp⟩
  · rw [hfail] at h
    cases h
  · have hok := useCoupon_success s codeParam now id old hcode hfind hact hexp
    rw [hok] at h ⊢
    simp only [Response.used.injEq] at h
    obtain ⟨rfl, rfl, rfl, rfl⟩ := h
    exact ⟨id, old, hcode, hfind, hact, hexp, rfl, rfl, rfl, rfl, rfl⟩

theorem useCoupon_failed (s : Store) (codeParam : String) (now : Int)
    (h : (useCoupon s codeParam now).2.status ≠ 200) : (useCoupon s codeParam now).1 = s := by
  rcases useCoupon_cases s codeParam now with
    ⟨st, msg, hfail, _⟩ | ⟨id, old, hcode, hfind, hact, hexp⟩
  · rw [hfail]
  · rw [useCoupon_success s codeParam now id old hcode hfind hact hexp] at h
    exact absurd rfl h

theorem used_coupon_loaded (old : Coupon) (d : ℚ) (now : Int) :
    hydrate { old with usageCount := old.usageCount.add 1
                       totalDiscount := old.totalDiscount.add d
                       usedAt := some now } =
      { old with usageCount := old.usageCount.add 1
                 totalDiscount := old.totalDiscount.add d
                 usedAt := some now } :=
  hydrate_of_defined _ (add_defined _ _) (add_defined _ _)

/-- C5. A successful redeem rewrites exactly the coupon that the code names.
With `stored` the persisted document and `c` the document after the redeem:
`usageCount` becomes `usageCount + 1` and `totalDiscount` becomes
`totalDiscount + discountAmount`, where a counter that is absent in the
persisted document counts as its default 0; `usedAt` becomes the current
instant; the paths `code`, `name`, `active`, `amount`, `discount`,
`expiresAt`, `isUsed` and `category` keep their values; every other document
is as before. A redeem that does not answer 200 leaves the store as it was.
Redeeming a coupon that create has just stored with amount 1000 and discount
25 leaves `usageCount = 1` and `totalDiscount = 50`. -/
theorem redeem_effect (s : Store) (codeParam : String) (now : Int) :
    (∀ c a d r, (useCoupon s codeParam now).2 = .used c a d r →
      ∃ id stored, s[id]? = some stored ∧
        findOne s (trim (toUpperCase codeParam)) = some (id, hydrate stored) ∧
        (useCoupon s codeParam now).1[id]? = some c ∧
        findById (useCoupon s codeParam now).1 id = some c ∧
        (∀ j, j ≠ id → (useCoupon s codeParam now).1[j]? = s[j]?) ∧
        (useCoupon s codeParam now).1.length = s.length ∧
        c.usageCount = (hydrate stored).usageCount.add 1 ∧
        c.totalDiscount = (hydrate stored).totalDiscount.add d ∧
        (∀ u, stored.usageCount = .num u → c.usageCount = .num (u + 1)) ∧
        (stored.usageCount = .undefined → c.usageCount = .num 1) ∧
        (∀ t, stored.totalDiscount = .num t → c.totalDiscount = .num (t + d)) ∧
        (stored.totalDiscount = .undefined → c.totalDiscount = .num d) ∧
        c.usedAt = some now ∧ c.code = stored.code ∧ c.name = stored.name ∧
        c.active = stored.active ∧ c.amount = stored.amount ∧
        c.discount = stored.discount ∧ c.expiresAt = stored.expiresAt ∧
        c.isUsed = stored.isUsed ∧ c.category = stored.category) ∧
    ((useCoupon s codeParam now).2.status ≠ 200 → (useCoupon s codeParam now).1 = s) ∧
    (∀ (castNumber : String → Option ℚ) (s₀ : Store) (b : CreateBody) (now₀ : Int) (c₀ : Coupon),
      createCoupon castNumber s₀ b now₀ = (s, .created c₀) →
      c₀.amount = 1000 → c₀.discount = 25 →
      codeParam ≠ "" → trim (toUpperCase codeParam) = c₀.code → isExpired c₀ now = false →
      ∃ c, (useCoupon s codeParam now).2 = .used c 1000 50 950 ∧
        findById (useCoupon s codeParam now).1 s₀.length = some c ∧
        c.usageCount = .num 1 ∧ c.totalDiscount = .num 50) := by
  refine ⟨?_, useCoupon_failed s codeParam now, ?_⟩
  · intro c a d r h
    obtain ⟨id, old, _, hfind, _, _, _, _, _, hc, hs⟩ := useCoupon_used s codeParam now c a d r h
    have hget := (findOne_spec s _ id old hfind).1
    obtain ⟨stored, hstored, hold⟩ := findById_stored s id old hget
    subst hold
    have hloaded : hydrate c = c := by
      rw [hc]
      exact used_coupon_loaded _ _ _
    refine ⟨id, stored, hstored, hfind, ?_, ?_, ?_, ?_, ?_, ?_, ?_, ?_, ?_, ?_, ?_⟩
    · rw [hs]
      exact stored_save_self s id _ c hget
    · rw [hs]
      exact findById_save_self s id _ c hget hloaded
    · intro j hj
      rw [hs]
      exact stored_save_other s id j c hj
    · rw [hs]
      simp [save]
    · rw [hc]
    · rw [hc]
    · intro u hu
      rw [hc]
      simp [hydrate, hu, JsNumber.add]
    · intro hu
      rw [hc]
      simp [hydrate, hu, JsNumber.add]
    · intro t ht
      rw [hc]
      simp [hydrate, ht, JsNumber.add]
    · intro ht
      rw [hc]
      simp [hydrate, ht, JsNumber.add]
    · rw [hc]
      exact ⟨rfl, rfl, rfl, rfl, rfl, rfl, rfl, rfl, rfl⟩
  · intro castNumber s₀ b now₀ c₀ hcreate ha hd hcode hnorm hexp
    obtain ⟨code, _, _, hs, hnone, _, hact, _, _, hu, ht⟩ :=
      createCoupon_created castNumber s₀ s b now₀ c₀ hcreate
    have hfind : findOne s (trim (toUpperCase codeParam)) = some (s₀.length, c₀) := by
      rw [hnorm, hs]
      exact findOne_append_new s₀ c₀ hnone (hydrate_of_num c₀ 0 0 hu ht)
    have hget := (findOne_spec s _ _ c₀ hfind).1
    have hval : discountAmount 1000 25 = 50 := by
      rw [discountAmount_eq]
      norm_num
    have hrest : (1000 : ℚ) - 50 = 950 := by norm_num
    have hload := used_coupon_loaded c₀ 50 now
    rw [hu, ht] at hload
    rw [useCoupon_success s codeParam now s₀.length c₀ hcode hfind hact hexp, ha, hd, hval,
      hrest, hu, ht]
    rw [ha, hd] at hload
    refine ⟨_, rfl, findById_save_self s _ c₀ _ hget hload, ?_, ?_⟩
    · simp only [JsNumber.add]
      norm_num
    · simp only [JsNumber.add]
      norm_num

theorem useCoupon_legacyCoupon :
    useCoupon [legacyCoupon] "legacy" 5 =
      ([{ legacyCoupon with usageCount := .num 1, totalDiscount := .num 80, usedAt := some 5 }],
        .used { legacyCoupon with
          usageCount := .num 1, totalDiscount := .num 80, usedAt := some 5 } 1000 50 950) := by
  have hcode : trim (toUpperCase "legacy") = "LEGACY" := by decide
  have hfind : findOne [legacyCoupon] (trim (toUpperCase "legacy")) =
      some (0, hydrate legacyCoupon) := by
    rw [hcode]
    simp [findOne, findOneFrom, legacyCoupon, sampleCoupon]
  rw [useCoupon_success [legacyCoupon] "legacy" 5 0 (hydrate legacyCoupon) (by decide) hfind
    rfl rfl]
  have hload : hydrate legacyCoupon = { legacyCoupon with usageCount := .num 0 } := by
    simp [hydrate, legacyCoupon]
  rw [hload]
  simp only [legacyCoupon, sampleCoupon, JsNumber.add, discountAmount_eq, save,
    List.set_cons_zero]
  norm_num

theorem redeem_effect_witness :
    (∃ c, (useCoupon [sampleCoupon] "save10" 5).2 = .used c 1000 50 950 ∧
      findById (useCoupon [sampleCoupon] "save10" 5).1 0 = some c ∧
      c.usageCount = .num 1 ∧ c.totalDiscount = .num 50) ∧
    (legacyCoupon.usageCount = .undefined ∧
      ∃ (id : Nat) (stored : Coupon), ([legacyCoupon] : Store)[id]? = some stored ∧
        (useCoupon [legacyCoupon] "legacy" 5).1[id]? =
          some { legacyCoupon with
            usageCount := .num 1, totalDiscount := .num 80, usedAt := some 5 }) :=
  ⟨(redeem_effect [sampleCoupon] "save10" 5).2.2 sampleCast [] sampleBody 0 sampleCoupon
    createCoupon_sampleBody rfl rfl (by decide) (by decide) (by decide),
   rfl,
   match (redeem_effect [legacyCoupon] "legacy" 5).1
      { legacyCoupon with usageCount := .num 1, totalDiscount := .num 80, usedAt := some 5 }
      1000 50 950 (congrArg Prod.snd useCoupon_legacyCoupon) with
   | ⟨id, stored, h1, _, h3, _⟩ => ⟨id, stored, h1, h3⟩⟩

/-! ## Toggle -/

/-- C10. For an id that names a coupon, with `c` the coupon as it is read:
one toggle stores and returns `c` with `active` negated and every other path
as before, other documents being untouched; a second toggle stores and
returns `c` itself, so that every document reads as before the two toggles,
and the store is the original store when the persisted document has both
counters. For an id that names no coupon, toggle answers 404 with `Coupon
not found` and leaves the store as it was. -/
theorem toggle_twice_restores (s : Store) (id : Nat) :
    (∀ c, findById s id = some c →
      toggleCoupon s (.objectId id) =
        (save s id { c with active := !c.active }, .toggled { c with active := !c.active }) ∧
      findById (toggleCoupon s (.objectId id)).1 id = some { c with active := !c.active } ∧
      (∀ j, j ≠ id → findById (toggleCoupon s (.objectId id)).1 j = findById s j) ∧
      toggleCoupon (toggleCoupon s (.objectId id)).1 (.objectId id) =
        (save s id c, .toggled c) ∧
      (∀ j, findById (toggleCoupon (toggleCoupon s (.objectId id)).1 (.objectId id)).1 j =
        findById s j) ∧
      (s[id]? = some c →
        toggleCoupon (toggleCoupon s (.objectId id)).1 (.objectId id) = (s, .toggled c))) ∧
    (findById s id = none →
      toggleCoupon s (.objectId id) = (s, .error 404 "Coupon not found")) := by
  constructor
  · intro c hc
    have hload := findById_loaded s id c hc
    have hload' : hydrate { c with active := !c.active } = { c with active := !c.active } := by
      have h := hydrate_defined c
      rw [hload] at h
      exact hydrate_of_defined _ h.1 h.2
    have h1 : toggleCoupon s (.objectId id) =
        (save s id { c with active := !c.active }, .toggled { c with active := !c.active }) := by
      simp only [toggleCoupon, hc]
    have h2 := findById_save_self s id c { c with active := !c.active } hc hload'
    have h3 : toggleCoupon (toggleCoupon s (.objectId id)).1 (.objectId id) =
        (save s id c, .toggled c) := by
      rw [h1]
      simp only [toggleCoupon, h2, Bool.not_not, save_save]
    refine ⟨h1, ?_, ?_, h3, ?_, ?_⟩
    · rw [h1]
      exact h2
    · intro j hj
      rw [h1]
      exact findById_save_other s id j _ hj
    · intro j
      rw [h3]
      by_cases hj : j = id
      · subst hj
        rw [findById_save_self s j c c hc hload, hc]
      · exact findById_save_other s id j c hj
    · intro hstored
      rw [h3, save_same s id c hstored]
  · intro hnone
    simp only [toggleCoupon, hnone]

theorem toggle_twice_restores_witness :
    findById [sampleCoupon] 0 = some sampleCoupon ∧
    toggleCoupon (toggleCoupon [sampleCoupon] (.objectId 0)).1 (.objectId 0) =
      ([sampleCoupon], .toggled sampleCoupon) ∧
    toggleCoupon [sampleCoupon] (.objectId 3) =
      ([sampleCoupon], .error 404 "Coupon not found") :=
  ⟨by decide, ((toggle_twice_restores [sampleCoupon] 0).1 sampleCoupon (by decide)).2.2.2.2.2 rfl,
    (toggle_twice_restores [sampleCoupon] 3).2 (by decide)⟩

/-! ## Usage summary -/

theorem autoFix_loaded (c : Coupon) (hu : c.usageCount ≠ .undefined)
    (ht : c.totalDiscount ≠ .undefined) : autoFix c = (c, false) := by
  simp [autoFix, hu, ht]

theorem autoFixLoop_loaded (l : List Coupon) (id : Nat) (s : Store)
    (h : ∀ c ∈ l, c.usageCount ≠ .undefined ∧ c.totalDiscount ≠ .undefined) :
    autoFixLoop l id s = (s, l) := by
  induction l generalizing id s with
  | nil => rfl
  | cons c rest ih =>
    have hc := h c (List.mem_cons_self _ _)
    simp only [autoFixLoop, autoFix_loaded c hc.1 hc.2, Bool.false_eq_true, if_false,
      ih (id + 1) s (fun d hd => h d (List.mem_cons_of_mem _ hd))]

theorem find_defined (s : Store) :
    ∀ c ∈ find s, c.usageCount ≠ .undefined ∧ c.totalDiscount ≠ .undefined := by
  intro c hc
  obtain ⟨d, _, rfl⟩ := List.mem_map.mp hc
  exact hydrate_defined d

theorem usageSummary_eq (s : Store) :
    usageSummary s = (s, .usage ((find s).map sanitize)) := by
  simp only [usageSummary, autoFixLoop_loaded (find s) 0 s (find_defined s)]

/-- C9, what the code does. The usage summary never writes to the store. Its
entries are the projections of the documents as they are loaded, so that
every entry has both counters defined and an absent counter is shown as 0,
and a second call returns the same; but a document that lacks a counter
still lacks it after the call: the coupon `LEGACY`, persisted without
`usageCount`, is listed with `usageCount = 0` and stays as it was. -/
theorem usage_summary_saves_nothing (s : Store) :
    usageSummary s = (s, .usage ((find s).map sanitize)) ∧
    (∀ e ∈ (find s).map sanitize, e.usageCount ≠ .undefined ∧ e.totalDiscount ≠ .undefined) ∧
    usageSummary (usageSummary s).1 = usageSummary s ∧
    legacyCoupon.usageCount = .undefined ∧
    usageSummary [legacyCoupon] =
      ([legacyCoupon], .usage [sanitize { legacyCoupon with usageCount := .num 0 }]) := by
  refine ⟨usageSummary_eq s, ?_, ?_, rfl, ?_⟩
  · intro e he
    obtain ⟨c, hc, rfl⟩ := List.mem_map.mp he
    exact find_defined s c hc
  · rw [usageSummary_eq s]
    exact usageSummary_eq s
  · rw [usageSummary_eq]
    decide

theorem usage_summary_saves_nothing_witness :
    (usageSummary [legacyCoupon]).1 = [legacyCoupon] ∧
    (usageSummary [legacyCoupon]).2 =
      .usage [sanitize { legacyCoupon with usageCount := .num 0 }] ∧
    (usageSummary [legacyCoupon]).1 ≠ [{ legacyCoupon with usageCount := .num 0 }] := by
  have h := (usage_summary_saves_nothing [legacyCoupon]).2.2.2.2
  rw [h]
  exact ⟨rfl, rfl, by decide⟩

/-! ## Counters along a history -/

theorem discountAmount_nonneg (a d : ℚ) (ha : 0 ≤ a) (hd : 0 ≤ d) : 0 ≤ discountAmount a d := by
  rw [discountAmount_eq]
  apply le_min
  · positivity
  · norm_num

theorem ok_loaded (c : Coupon) (h : CouponOk c) : hydrate c = c := by
  obtain ⟨⟨u, t, hu, ht, _, _⟩, _, _⟩ := h
  exact hydrate_of_num c u t hu ht

theorem findById_ok (s : Store) (hs : ∀ c ∈ s, CouponOk c) (id : Nat) (c : Coupon)
    (h : findById s id = some c) : s[id]? = some c := by
  obtain ⟨stored, hstored, hc⟩ := findById_stored s id c h
  rw [ok_loaded stored (hs stored (List.getElem?_mem hstored))] at hc
  rw [hstored, hc]

theorem grows_self (c : Coupon) (h : CouponOk c) : Grows c c := by
  obtain ⟨⟨u, t, hu, ht, _, _⟩, _, _⟩ := h
  exact ⟨u, t, u, t, hu, hu, le_refl u, ht, ht, le_refl t⟩

theorem ok_save (s : Store) (id : Nat) (new : Coupon) (hs : ∀ c ∈ s, CouponOk c)
    (hnew : CouponOk new) : ∀ c ∈ save s id new, CouponOk c := by
  intro c hc
  rcases List.mem_or_eq_of_mem_set hc with h | h
  · exact hs c h
  · rw [h]
    exact hnew

theorem grows_save (s : Store) (id : Nat) (old new : Coupon) (hs : ∀ c ∈ s, CouponOk c)
    (hold : findById s id = some old) (hnew : CouponOk new) (hg : Grows old new) (j : Nat)
    (c : Coupon) (hc : findById s j = some c) :
    ∃ c', findById (save s id new) j = some c' ∧ Grows c c' := by
  by_cases hj : j = id
  · subst hj
    rw [hold] at hc
    cases hc
    exact ⟨new, findById_save_self s j old new hold (ok_loaded new hnew), hg⟩
  · refine ⟨c, ?_, grows_self c (hs c (List.getElem?_mem (findById_ok s hs j c hc)))⟩
    rw [findById_save_other s id j new hj]
    exact hc

theorem used_coupon_grows (old : Coupon) (now : Int) (h : CouponOk old) :
    CouponOk { old with
      usageCount := old.usageCount.add 1
      totalDiscount := old.totalDiscount.add (discountAmount old.amount old.discount)
      usedAt := some now } ∧
    Grows old { old with
      usageCount := old.usageCount.add 1
      totalDiscount := old.totalDiscount.add (discountAmount old.amount old.discount)
      usedAt := some now } := by
  obtain ⟨⟨u, t, hu, ht, hu0, ht0⟩, ha, hd⟩ := h
  have hdisc := discountAmount_nonneg old.amount old.discount ha hd
  constructor
  · refine ⟨⟨u + 1, t + discountAmount old.amount old.discount, ?_, ?_, ?_, ?_⟩, ha, hd⟩
    · simp [hu, JsNumber.add]
    · simp [ht, JsNumber.add]
    · linarith
    · linarith
  · refine ⟨u, t, u + 1, t + discountAmount old.amount old.discount, hu, ?_, ?_, ht, ?_, ?_⟩
    · simp [hu, JsNumber.add]
    · linarith
    · simp [ht, JsNumber.add]
    · linarith

theorem serve_shape (castNumber : String → Option ℚ) (s : Store) (now : Int) (r : Request)
    (hs : ∀ c ∈ s, CouponOk c) :
    serve castNumber s now r = s ∨
    (∃ c, serve castNumber s now r = s ++ [c] ∧ CouponOk c) ∨
    (∃ id old new, findById s id = some old ∧ serve castNumber s now r = save s id new ∧
      CouponOk new ∧ Grows old new) := by
  cases r with
  | create b =>
    rcases createCoupon_cases castNumber s b now with
      ⟨st, msg, hfail, _⟩ | ⟨code, c, _, _, _, _, _, _, hok⟩
    · left
      simp only [serve, hfail]
    · right
      left
      obtain ⟨_, _, _, _, _, _, _, ha, hd, hu, ht⟩ := createCoupon_created castNumber s _ b now c hok
      exact ⟨c, by simp only [serve, hok], ⟨0, 0, hu, ht, le_refl 0, le_refl 0⟩, ha, hd⟩
  | use codeParam =>
    rcases useCoupon_cases s codeParam now with
      ⟨st, msg, hfail, _⟩ | ⟨id, old, hcode, hfind, hact, hexp⟩
    · left
      simp only [serve, hfail]
    · right
      right
      have hget := (findOne_spec s _ id old hfind).1
      have hold := hs old (List.getElem?_mem (findById_ok s hs id old hget))
      obtain ⟨h1, h2⟩ := used_coupon_grows old now hold
      exact ⟨id, old, _, hget,
        by simp only [serve, useCoupon_success s codeParam now id old hcode hfind hact hexp],
        h1, h2⟩
  | toggle id =>
    cases id with
    | malformed =>
      left
      rfl
    | objectId id =>
      cases hget : findById s id with
      | none =>
        left
        simp only [serve, toggleCoupon, hget]
      | some old =>
        right
        right
        have hold := hs old (List.getElem?_mem (findById_ok s hs id old hget))
        refine ⟨id, old, { old with active := !old.active }, hget, ?_, ?_, ?_⟩
        · simp only [serve, toggleCoupon, hget]
        · exact hold
        · exact grows_self old hold
  | usage =>
    left
    simp only [serve, usageSummary_eq]

theorem serve_ok (castNumber : String → Option ℚ) (s : Store) (now : Int) (r : Request)
    (hs : ∀ c ∈ s, CouponOk c) : ∀ c ∈ serve castNumber s now r, CouponOk c := by
  rcases serve_shape castNumber s now r hs with h | ⟨c, h, hc⟩ | ⟨id, old, new, _, h, hnew, _⟩
  · rw [h]
    exact hs
  · rw [h]
    intro d hd
    rcases List.mem_append.mp hd with hd | hd
    · exact hs d hd
    · rw [List.mem_singleton.mp hd]
      exact hc
  · rw [h]
    exact ok_save s id new hs hnew

theorem reachable_ok (castNumber : String → Option ℚ) (s : Store)
    (h : Reachable castNumber s) : ∀ c ∈ s, CouponOk c := by
  induction h with
  | empty =>
    intro c hc
    cases hc
  | step now r _ ih => exact serve_ok castNumber _ now r ih

theorem serve_grows (castNumber : String → Option ℚ) (s : Store) (now : Int) (r : Request)
    (hs : ∀ c ∈ s, CouponOk c) (id : Nat) (c : Coupon) (hc : findById s id = some c) :
    ∃ c', findById (serve castNumber s now r) id = some c' ∧ Grows c c' := by
  have hstored := findById_ok s hs id c hc
  have hself := grows_self c (hs c (List.getElem?_mem hstored))
  rcases serve_shape castNumber s now r hs with
    h | ⟨d, h, _⟩ | ⟨j, old, new, hold, h, hnew, hg⟩
  · rw [h]
    exact ⟨c, hc, hself⟩
  · rw [h]
    refine ⟨c, ?_, hself⟩
    unfold findById at hc ⊢
    have hlt : id < s.length := by
      rcases Nat.lt_or_ge id s.length with hlt | hge
      · exact hlt
      · rw [List.getElem?_eq_none hge] at hstored
        cases hstored
    rw [List.getElem?_append_left hlt]
    exact hc
  · rw [h]
    exact grows_save s j old new hs hold hnew hg id c hc

theorem reachable_sample : Reachable sampleCast [sampleCoupon] := by
  have h := @Reachable.step sampleCast [] 0 (.create sampleBody) Reachable.empty
  simp only [serve, createCoupon_sampleBody] at h
  exact h

/-- C6. In every store that arises from the empty collection by create,
redeem, toggle and usage-summary requests, `usageCount` and `totalDiscount` of
every coupon are numbers that are not negative, and no such request lowers
either counter of a coupon of the store. Create stores both counters as 0;
a successful redeem adds 1 to `usageCount` and adds its `discountAmount`,
which is not negative, to `totalDiscount`. -/
theorem counters_never_decrease (castNumber : String → Option ℚ) (s : Store)
    (h : Reachable castNumber s) :
    (∀ c ∈ s, ∃ u t, c.usageCount = .num u ∧ c.totalDiscount = .num t ∧ 0 ≤ u ∧ 0 ≤ t) ∧
    (∀ now r id c, findById s id = some c →
      ∃ c' u t u' t', findById (serve castNumber s now r) id = some c' ∧
        c.usageCount = .num u ∧ c'.usageCount = .num u' ∧ u ≤ u' ∧
        c.totalDiscount = .num t ∧ c'.totalDiscount = .num t' ∧ t ≤ t') ∧
    (∀ now b s' c, createCoupon castNumber s b now = (s', .created c) →
      c.usageCount = .num 0 ∧ c.totalDiscount = .num 0) ∧
    (∀ now codeParam c a d r, (useCoupon s codeParam now).2 = .used c a d r →
      0 ≤ d ∧ ∃ id old u t, findById s id = some old ∧
        findById (useCoupon s codeParam now).1 id = some c ∧
        old.usageCount = .num u ∧ old.totalDiscount = .num t ∧
        c.usageCount = .num (u + 1) ∧ c.totalDiscount = .num (t + d)) := by
  have hs := reachable_ok castNumber s h
  refine ⟨fun c hc => (hs c hc).1, ?_, ?_, ?_⟩
  · intro now r id c hc
    obtain ⟨c', hget, u, t, u', t', h1, h2, h3, h4, h5, h6⟩ :=
      serve_grows castNumber s now r hs id c hc
    exact ⟨c', u, t, u', t', hget, h1, h2, h3, h4, h5, h6⟩
  · intro now b s' c hc
    obtain ⟨_, _, _, _, _, _, _, _, _, hu, ht⟩ := createCoupon_created castNumber s s' b now c hc
    exact ⟨hu, ht⟩
  · intro now codeParam c a d r hused
    obtain ⟨id, old, _, hfind, _, _, hd, _, _, hc, hstore⟩ :=
      useCoupon_used s codeParam now c a d r hused
    have hget := (findOne_spec s _ id old hfind).1
    obtain ⟨⟨u, t, hu, ht, _, _⟩, ha0, hd0⟩ :=
      hs old (List.getElem?_mem (findById_ok s hs id old hget))
    have hloaded : hydrate c = c := by
      rw [hc]
      exact used_coupon_loaded _ _ _
    refine ⟨?_, id, old, u, t, hget, ?_, hu, ht, ?_, ?_⟩
    · rw [hd]
      exact discountAmount_nonneg _ _ ha0 hd0
    · rw [hstore]
      exact findById_save_self s id old c hget hloaded
    · rw [hc]
      simp [hu, JsNumber.add]
    · rw [hc]
      simp [ht, JsNumber.add]

theorem counters_never_decrease_witness :
    Reachable sampleCast [sampleCoupon] ∧
    (∀ c ∈ [sampleCoupon],
      ∃ u t, c.usageCount = .num u ∧ c.totalDiscount = .num t ∧ 0 ≤ u ∧ 0 ≤ t) ∧
    (∃ c' u t u' t', findById (serve sampleCast [sampleCoupon] 5 (.use "save10")) 0 = some c' ∧
        sampleCoupon.usageCount = .num u ∧ c'.usageCount = .num u' ∧ u ≤ u' ∧
        sampleCoupon.totalDiscount = .num t ∧ c'.totalDiscount = .num t' ∧ t ≤ t') :=
  ⟨reachable_sample, (counters_never_decrease sampleCast [sampleCoupon] reachable_sample).1,
    (counters_never_decrease sampleCast [sampleCoupon] reachable_sample).2.1 5 (.use "save10") 0
      sampleCoupon (by decide)⟩

/-! ## Rounding to binary64 -/

theorem roundHalfEven_close (x : ℚ) :
    x - 1 / 2 ≤ roundHalfEven x ∧ (roundHalfEven x : ℚ) ≤ x + 1 / 2 := by
  have h1 : (⌊x⌋ : ℚ) ≤ x := Int.floor_le x
  have h2 : x < ⌊x⌋ + 1 := Int.lt_floor_add_one x
  unfold roundHalfEven
  split
  · constructor <;> linarith
  · split
    · push_cast
      constructor <;> linarith
    · split
      · constructor <;> linarith
      · push_cast
        constructor <;> linarith

theorem roundHalfEven_eq (x : ℚ) (m : ℤ) (h1 : (m : ℚ) - 1 / 2 < x) (h2 : x < m + 1 / 2) :
    roundHalfEven x = m := by
  have hc := roundHalfEven_close x
  have hlt : (roundHalfEven x : ℚ) < m + 1 := by linarith [hc.2]
  have hgt : (m : ℚ) - 1 < roundHalfEven x := by linarith [hc.1]
  have hlt' : roundHalfEven x < m + 1 := by exact_mod_cast hlt
  have hgt' : m - 1 < roundHalfEven x := by exact_mod_cast hgt
  omega

theorem roundHalfEven_le_int (x : ℚ) (n : ℤ) (h : x ≤ n) : roundHalfEven x ≤ n := by
  have hf : ⌊x⌋ ≤ n := by
    have : (⌊x⌋ : ℚ) ≤ n := le_trans (Int.floor_le x) h
    exact_mod_cast this
  rcases lt_or_eq_of_le hf with hlt | heq
  · have hstep : roundHalfEven x ≤ ⌊x⌋ + 1 := by
      unfold roundHalfEven
      split
      · omega
      · split
        · omega
        · split <;> omega
    omega
  · have hx : x - ⌊x⌋ < 1 / 2 := by
      have : x ≤ ⌊x⌋ := by rw [heq]; exact h
      linarith
    unfold roundHalfEven
    rw [if_pos hx, heq]

theorem log_bounds (x : ℚ) (hx : 0 < x) :
    (2 : ℚ) ^ (52 : ℤ) ≤ x / 2 ^ (Int.log 2 x - 52) ∧
    x / 2 ^ (Int.log 2 x - 52) < 2 ^ (53 : ℤ) := by
  have h2 : (0 : ℚ) < 2 := by norm_num
  have hpos : (0 : ℚ) < 2 ^ (Int.log 2 x - 52) := zpow_pos h2 _
  have hlo : ((2 : ℕ) : ℚ) ^ Int.log 2 x ≤ x := Int.zpow_log_le_self (by norm_num) hx
  have hhi : x < ((2 : ℕ) : ℚ) ^ (Int.log 2 x + 1) := Int.lt_zpow_succ_log_self (by norm_num) x
  push_cast at hlo hhi
  constructor
  · rw [le_div_iff₀ hpos, ← zpow_add₀ (by norm_num : (2 : ℚ) ≠ 0)]
    have : (52 : ℤ) + (Int.log 2 x - 52) = Int.log 2 x := by ring
    rw [this]
    exact hlo
  · rw [div_lt_iff₀ hpos, ← zpow_add₀ (by norm_num : (2 : ℚ) ≠ 0)]
    have : (53 : ℤ) + (Int.log 2 x - 52) = Int.log 2 x + 1 := by ring
    rw [this]
    exact hhi


theorem binary64_pos (x : ℚ) (hx : 0 < x) :
    binary64 x =
      (roundHalfEven (x / 2 ^ (Int.log 2 x - 52)) : ℚ) * 2 ^ (Int.log 2 x - 52) := by
  unfold binary64
  rw [if_neg (ne_of_gt hx), abs_of_pos hx]

theorem binary64_zero : binary64 0 = 0 := by
  simp [binary64]

theorem binary64_nonneg (x : ℚ) (hx : 0 ≤ x) : 0 ≤ binary64 x := by
  rcases eq_or_lt_of_le hx with h | h
  · rw [← h, binary64_zero]
  · rw [binary64_pos x h]
    have hb := log_bounds x h
    have hc := roundHalfEven_close (x / 2 ^ (Int.log 2 x - 52))
    have h52 : (1 : ℚ) ≤ 2 ^ (52 : ℤ) := by norm_num
    have hm : (0 : ℚ) ≤ roundHalfEven (x / 2 ^ (Int.log 2 x - 52)) := by linarith [hc.1, hb.1]
    exact mul_nonneg hm (le_of_lt (zpow_pos (by norm_num) _))

theorem binary64_le_rel (x : ℚ) (hx : 0 ≤ x) : binary64 x ≤ x * (1 + 2 ^ (-53 : ℤ)) := by
  rcases eq_or_lt_of_le hx with h | h
  · rw [← h, binary64_zero]
    simp
  · rw [binary64_pos x h]
    have hb := log_bounds x h
    have hc := roundHalfEven_close (x / 2 ^ (Int.log 2 x - 52))
    have hpos : (0 : ℚ) < 2 ^ (Int.log 2 x - 52) := zpow_pos (by norm_num) _
    have hq : x / 2 ^ (Int.log 2 x - 52) * 2 ^ (Int.log 2 x - 52) = x :=
      div_mul_cancel₀ x (ne_of_gt hpos)
    have hhalf : (1 : ℚ) / 2 ≤ x / 2 ^ (Int.log 2 x - 52) * 2 ^ (-53 : ℤ) := by
      have : (2 : ℚ) ^ (52 : ℤ) * 2 ^ (-53 : ℤ) = 1 / 2 := by norm_num
      rw [← this]
      exact mul_le_mul_of_nonneg_right hb.1 (by norm_num)
    have hm : (roundHalfEven (x / 2 ^ (Int.log 2 x - 52)) : ℚ) ≤
        x / 2 ^ (Int.log 2 x - 52) * (1 + 2 ^ (-53 : ℤ)) := by linarith [hc.2]
    calc (roundHalfEven (x / 2 ^ (Int.log 2 x - 52)) : ℚ) * 2 ^ (Int.log 2 x - 52)
        ≤ x / 2 ^ (Int.log 2 x - 52) * (1 + 2 ^ (-53 : ℤ)) * 2 ^ (Int.log 2 x - 52) :=
          mul_le_mul_of_nonneg_right hm (le_of_lt hpos)
      _ = x / 2 ^ (Int.log 2 x - 52) * 2 ^ (Int.log 2 x - 52) * (1 + 2 ^ (-53 : ℤ)) := by ring
      _ = x * (1 + 2 ^ (-53 : ℤ)) := by rw [hq]

theorem binary64_ge_rel (x : ℚ) (hx : 0 ≤ x) : x * (1 - 2 ^ (-53 : ℤ)) ≤ binary64 x := by
  rcases eq_or_lt_of_le hx with h | h
  · rw [← h, binary64_zero]
    simp
  · rw [binary64_pos x h]
    have hb := log_bounds x h
    have hc := roundHalfEven_close (x / 2 ^ (Int.log 2 x - 52))
    have hpos : (0 : ℚ) < 2 ^ (Int.log 2 x - 52) := zpow_pos (by norm_num) _
    have hq : x / 2 ^ (Int.log 2 x - 52) * 2 ^ (Int.log 2 x - 52) = x :=
      div_mul_cancel₀ x (ne_of_gt hpos)
    have hhalf : (1 : ℚ) / 2 ≤ x / 2 ^ (Int.log 2 x - 52) * 2 ^ (-53 : ℤ) := by
      have : (2 : ℚ) ^ (52 : ℤ) * 2 ^ (-53 : ℤ) = 1 / 2 := by norm_num
      rw [← this]
      exact mul_le_mul_of_nonneg_right hb.1 (by norm_num)
    have hm : x / 2 ^ (Int.log 2 x - 52) * (1 - 2 ^ (-53 : ℤ)) ≤
        (roundHalfEven (x / 2 ^ (Int.log 2 x - 52)) : ℚ) := by linarith [hc.1]
    calc x * (1 - 2 ^ (-53 : ℤ))
        = x / 2 ^ (Int.log 2 x - 52) * 2 ^ (Int.log 2 x - 52) * (1 - 2 ^ (-53 : ℤ)) := by rw [hq]
      _ = x / 2 ^ (Int.log 2 x - 52) * (1 - 2 ^ (-53 : ℤ)) * 2 ^ (Int.log 2 x - 52) := by ring
      _ ≤ (roundHalfEven (x / 2 ^ (Int.log 2 x - 52)) : ℚ) * 2 ^ (Int.log 2 x - 52) :=
          mul_le_mul_of_nonneg_right hm (le_of_lt hpos)

/-- Rounding does not cross a binary64 value: what is at most `a` rounds to at
most `a` when `a` is itself a binary64 value. -/
theorem binary64_le_of_le (y a : ℚ) (hy : 0 ≤ y) (hya : y ≤ a) (ha : binary64 a = a) :
    binary64 y ≤ a := by
  rcases eq_or_lt_of_le hy with h | h
  · rw [← h, binary64_zero]
    exact le_trans hy hya
  · have hapos : 0 < a := lt_of_lt_of_le h hya
    have hmono : Int.log 2 y ≤ Int.log 2 a := Int.log_mono_right h hya
    have hby := log_bounds y h
    have hposy : (0 : ℚ) < 2 ^ (Int.log 2 y - 52) := zpow_pos (by norm_num) _
    have hposa : (0 : ℚ) < 2 ^ (Int.log 2 a - 52) := zpow_pos (by norm_num) _
    rw [binary64_pos y h]
    rcases lt_or_eq_of_le hmono with hlt | heq
    · have hm : roundHalfEven (y / 2 ^ (Int.log 2 y - 52)) ≤ 2 ^ 53 := by
        apply roundHalfEven_le_int
        have := hby.2
        push_cast
        have h53 : ((2 : ℚ) ^ (53 : ℤ)) = 2 ^ (53 : ℕ) := by norm_num
        rw [h53] at this
        exact le_of_lt this
      have hm' : (roundHalfEven (y / 2 ^ (Int.log 2 y - 52)) : ℚ) ≤ 2 ^ (53 : ℤ) := by
        have : ((roundHalfEven (y / 2 ^ (Int.log 2 y - 52)) : ℤ) : ℚ) ≤ ((2 ^ 53 : ℤ) : ℚ) := by
          exact_mod_cast hm
        have h53 : ((2 ^ 53 : ℤ) : ℚ) = (2 : ℚ) ^ (53 : ℤ) := by norm_num
        rw [h53] at this
        exact this
      have hlog : ((2 : ℕ) : ℚ) ^ Int.log 2 a ≤ a := Int.zpow_log_le_self (by norm_num) hapos
      push_cast at hlog
      calc (roundHalfEven (y / 2 ^ (Int.log 2 y - 52)) : ℚ) * 2 ^ (Int.log 2 y - 52)
          ≤ 2 ^ (53 : ℤ) * 2 ^ (Int.log 2 y - 52) :=
            mul_le_mul_of_nonneg_right hm' (le_of_lt hposy)
        _ = 2 ^ (Int.log 2 y + 1) := by
            rw [← zpow_add₀ (by norm_num : (2 : ℚ) ≠ 0)]
            congr 1
            ring
        _ ≤ 2 ^ Int.log 2 a := zpow_le_zpow_right₀ (by norm_num) (by omega)
        _ ≤ a := hlog
    · rw [binary64_pos a hapos] at ha
      rw [heq]
      have hqa : (roundHalfEven (a / 2 ^ (Int.log 2 a - 52)) : ℚ) = a / 2 ^ (Int.log 2 a - 52) := by
        rw [eq_div_iff (ne_of_gt hposa)]
        exact ha
      have hle : y / 2 ^ (Int.log 2 a - 52) ≤
          (roundHalfEven (a / 2 ^ (Int.log 2 a - 52)) : ℚ) := by
        rw [hqa]
        exact div_le_div_of_nonneg_right hya (le_of_lt hposa)
      have hm := roundHalfEven_le_int _ _ hle
      have hm' : (roundHalfEven (y / 2 ^ (Int.log 2 a - 52)) : ℚ) ≤
          (roundHalfEven (a / 2 ^ (Int.log 2 a - 52)) : ℚ) := by exact_mod_cast hm
      calc (roundHalfEven (y / 2 ^ (Int.log 2 a - 52)) : ℚ) * 2 ^ (Int.log 2 a - 52)
          ≤ (roundHalfEven (a / 2 ^ (Int.log 2 a - 52)) : ℚ) * 2 ^ (Int.log 2 a - 52) :=
            mul_le_mul_of_nonneg_right hm' (le_of_lt hposa)
        _ = a := ha

/-- Evaluation of `binary64` at a positive number from its scaled quotient. -/
theorem binary64_eq (x : ℚ) (m e : ℤ) (hx : 0 < x) (hlo : (2 : ℚ) ^ (52 : ℤ) ≤ x / 2 ^ e)
    (hhi : x / 2 ^ e < 2 ^ (53 : ℤ)) (h1 : (m : ℚ) - 1 / 2 < x / 2 ^ e)
    (h2 : x / 2 ^ e < m + 1 / 2) : binary64 x = m * 2 ^ e := by
  have hpos : (0 : ℚ) < 2 ^ e := zpow_pos (by norm_num) _
  have hlog : Int.log 2 x = e + 52 := by
    apply le_antisymm
    · have : Int.log 2 x < e + 53 := by
        rw [← Int.lt_zpow_iff_log_lt (by norm_num) hx]
        push_cast
        rw [div_lt_iff₀ hpos, ← zpow_add₀ (by norm_num : (2 : ℚ) ≠ 0)] at hhi
        have he : (53 : ℤ) + e = e + 53 := by ring
        rw [he] at hhi
        exact hhi
      omega
    · rw [← Int.zpow_le_iff_le_log (by norm_num) hx]
      push_cast
      rw [le_div_iff₀ hpos, ← zpow_add₀ (by norm_num : (2 : ℚ) ≠ 0)] at hlo
      have he : (52 : ℤ) + e = e + 52 := by ring
      rw [he] at hlo
      exact hlo
  rw [binary64_pos x hx, hlog]
  have he : e + 52 - 52 = e := by ring
  rw [he, roundHalfEven_eq _ m h1 h2]

/-! ## Redemption: bounds under the schema -/

theorem discountAmount_le_fifth (a p : ℚ) (ha : 0 ≤ a) (hp : p ≤ 100) :
    discountAmount a p ≤ a / 5 := by
  rw [discountAmount_eq]
  apply le_trans (min_le_left _ _)
  have h : a * p ≤ a * 100 := mul_le_mul_of_nonneg_left hp ha
  linarith

theorem useCouponWith_exact (s : Store) (codeParam : String) (now : Int) :
    useCouponWith (fun x => x) s codeParam now = useCoupon s codeParam now := by
  unfold useCouponWith useCoupon
  have hadd : ∀ (x : JsNumber) (y : ℚ), x.addWith (fun x => x) y = x.add y := by
    intro x y
    cases x <;> rfl
  simp only [hadd, discountAmountWith, baseDiscountAmountWith, discountAmount,
    baseDiscountAmount]

theorem useCouponWith_success (fl : ℚ → ℚ) (s : Store) (codeParam : String) (now : Int)
    (id : Nat) (coupon : Coupon) (hcode : codeParam ≠ "")
    (hfind : findOne s (trim (toUpperCase codeParam)) = some (id, coupon))
    (hactive : coupon.active = true) (hexp : isExpired coupon now = false) :
    (useCouponWith fl s codeParam now).2 =
      .used { coupon with
          usageCount := coupon.usageCount.addWith fl 1
          totalDiscount :=
            coupon.totalDiscount.addWith fl (discountAmountWith fl coupon.amount coupon.discount)
          usedAt := some now }
        coupon.amount (discountAmountWith fl coupon.amount coupon.discount)
        (fl (coupon.amount - discountAmountWith fl coupon.amount coupon.discount)) := by
  simp [useCouponWith, hcode, hfind, hactive, hexp, parseFloat]

theorem useCouponWith_used (fl : ℚ → ℚ) (s : Store) (codeParam : String) (now : Int)
    (c : Coupon) (a d r : ℚ) (h : (useCouponWith fl s codeParam now).2 = .used c a d r) :
    ∃ id old, codeParam ≠ "" ∧ findOne s (trim (toUpperCase codeParam)) = some (id, old) ∧
      old.active = true ∧ isExpired old now = false ∧ c.amount = old.amount ∧
      c.discount = old.discount ∧ a = old.amount ∧
      d = discountAmountWith fl old.amount old.discount ∧ r = fl (old.amount - d) := by
  by_cases hcode : codeParam = ""
  · simp [useCouponWith, hcode] at h
  · cases hfind : findOne s (trim (toUpperCase codeParam)) with
    | none => simp [useCouponWith, hcode, hfind] at h
    | some p =>
      obtain ⟨id, old⟩ := p
      cases hactive : old.active with
      | false => simp [useCouponWith, hcode, hfind, hactive] at h
      | true =>
        cases hexp : isExpired old now with
        | true => simp [useCouponWith, hcode, hfind, hactive, hexp] at h
        | false =>
          rw [useCouponWith_success fl s codeParam now id old hcode hfind hactive hexp] at h
          simp only [Response.used.injEq] at h
          obtain ⟨rfl, rfl, rfl, rfl⟩ := h
          exact ⟨id, old, hcode, rfl, hactive, hexp, rfl, rfl, rfl, rfl, rfl⟩

theorem discountAmount64_bounds (a p : ℚ) (ha : 0 ≤ a) (hp0 : 0 ≤ p) (hp : p ≤ 100) :
    0 ≤ discountAmountWith binary64 a p ∧ discountAmountWith binary64 a p ≤ 500 ∧
    discountAmountWith binary64 a p ≤ a / 5 * (1 + 2 ^ (-53 : ℤ)) ^ 4 := by
  have hu : (0 : ℚ) ≤ 1 + 2 ^ (-53 : ℤ) := by norm_num
  have h0 : 0 ≤ a * p := mul_nonneg ha hp0
  have n1 := binary64_nonneg (a * p) h0
  have u1 := binary64_le_rel (a * p) h0
  have h1 : 0 ≤ binary64 (a * p) / 100 := by positivity
  have n2 := binary64_nonneg _ h1
  have u2 := binary64_le_rel _ h1
  have h2 : 0 ≤ binary64 (binary64 (a * p) / 100) * 20 := by positivity
  have n3 := binary64_nonneg _ h2
  have u3 := binary64_le_rel _ h2
  have h3 : 0 ≤ binary64 (binary64 (binary64 (a * p) / 100) * 20) / 100 := by positivity
  have n4 := binary64_nonneg _ h3
  have u4 := binary64_le_rel _ h3
  have hap : a * p ≤ a * 100 := mul_le_mul_of_nonneg_left hp ha
  have b1 : binary64 (a * p) ≤ a * 100 * (1 + 2 ^ (-53 : ℤ)) :=
    le_trans u1 (mul_le_mul_of_nonneg_right hap hu)
  have b2 : binary64 (binary64 (a * p) / 100) ≤ a * (1 + 2 ^ (-53 : ℤ)) ^ 2 := by
    have : binary64 (a * p) / 100 * (1 + 2 ^ (-53 : ℤ)) ≤
        a * 100 * (1 + 2 ^ (-53 : ℤ)) / 100 * (1 + 2 ^ (-53 : ℤ)) :=
      mul_le_mul_of_nonneg_right (div_le_div_of_nonneg_right b1 (by norm_num)) hu
    calc binary64 (binary64 (a * p) / 100) ≤ binary64 (a * p) / 100 * (1 + 2 ^ (-53 : ℤ)) := u2
      _ ≤ a * 100 * (1 + 2 ^ (-53 : ℤ)) / 100 * (1 + 2 ^ (-53 : ℤ)) := this
      _ = a * (1 + 2 ^ (-53 : ℤ)) ^ 2 := by ring
  have b3 : binary64 (binary64 (binary64 (a * p) / 100) * 20) ≤
      a * 20 * (1 + 2 ^ (-53 : ℤ)) ^ 3 := by
    have : binary64 (binary64 (a * p) / 100) * 20 * (1 + 2 ^ (-53 : ℤ)) ≤
        a * (1 + 2 ^ (-53 : ℤ)) ^ 2 * 20 * (1 + 2 ^ (-53 : ℤ)) :=
      mul_le_mul_of_nonneg_right (mul_le_mul_of_nonneg_right b2 (by norm_num)) hu
    calc binary64 (binary64 (binary64 (a * p) / 100) * 20)
        ≤ binary64 (binary64 (a * p) / 100) * 20 * (1 + 2 ^ (-53 : ℤ)) := u3
      _ ≤ a * (1 + 2 ^ (-53 : ℤ)) ^ 2 * 20 * (1 + 2 ^ (-53 : ℤ)) := this
      _ = a * 20 * (1 + 2 ^ (-53 : ℤ)) ^ 3 := by ring
  have b4 : binary64 (binary64 (binary64 (binary64 (a * p) / 100) * 20) / 100) ≤
      a / 5 * (1 + 2 ^ (-53 : ℤ)) ^ 4 := by
    have : binary64 (binary64 (binary64 (a * p) / 100) * 20) / 100 * (1 + 2 ^ (-53 : ℤ)) ≤
        a * 20 * (1 + 2 ^ (-53 : ℤ)) ^ 3 / 100 * (1 + 2 ^ (-53 : ℤ)) :=
      mul_le_mul_of_nonneg_right (div_le_div_of_nonneg_right b3 (by norm_num)) hu
    calc binary64 (binary64 (binary64 (binary64 (a * p) / 100) * 20) / 100)
        ≤ binary64 (binary64 (binary64 (a * p) / 100) * 20) / 100 * (1 + 2 ^ (-53 : ℤ)) := u4
      _ ≤ a * 20 * (1 + 2 ^ (-53 : ℤ)) ^ 3 / 100 * (1 + 2 ^ (-53 : ℤ)) := this
      _ = a / 5 * (1 + 2 ^ (-53 : ℤ)) ^ 4 := by ring
  simp only [discountAmountWith, baseDiscountAmountWith, maxDiscount, maxAllowedDiscount]
  refine ⟨le_min n4 (by norm_num), min_le_right _ _, le_trans (min_le_left _ _) b4⟩

theorem binary64_tiny_amount :
    binary64 tinyCoupon.amount = tinyCoupon.amount := by
  have h := binary64_eq (7926335344172073 / 72057594037927936) 7926335344172073 (-56)
    (by norm_num) (by norm_num) (by norm_num) (by norm_num) (by norm_num)
  simp only [tinyCoupon]
  rw [h]
  norm_num

theorem discountAmount64_tiny :
    discountAmountWith binary64 tinyCoupon.amount tinyCoupon.discount =
      6341068275337659 / 288230376151711744 := by
  have h1 : binary64 (7926335344172073 / 72057594037927936 * 100) = 11 := by
    rw [binary64_eq (7926335344172073 / 72057594037927936 * 100) 6192449487634432 (-49)
      (by norm_num) (by norm_num) (by norm_num) (by norm_num) (by norm_num)]
    norm_num
  have h2 : binary64 (11 / 100) = 7926335344172073 / 72057594037927936 := by
    rw [binary64_eq (11 / 100) 7926335344172073 (-56)
      (by norm_num) (by norm_num) (by norm_num) (by norm_num) (by norm_num)]
    norm_num
  have h3 : binary64 (7926335344172073 / 72057594037927936 * 20) =
      2476979795053773 / 1125899906842624 := by
    rw [binary64_eq (7926335344172073 / 72057594037927936 * 20) 4953959590107546 (-51)
      (by norm_num) (by norm_num) (by norm_num) (by norm_num) (by norm_num)]
    norm_num
  have h4 : binary64 (2476979795053773 / 1125899906842624 / 100) =
      6341068275337659 / 288230376151711744 := by
    rw [binary64_eq (2476979795053773 / 1125899906842624 / 100) 6341068275337659 (-58)
      (by norm_num) (by norm_num) (by norm_num) (by norm_num) (by norm_num)]
    norm_num
  simp only [discountAmountWith, baseDiscountAmountWith, maxDiscount, maxAllowedDiscount,
    tinyCoupon, h1, h2, h3, h4]
  norm_num

theorem after64_tiny :
    binary64 (tinyCoupon.amount - 6341068275337659 / 288230376151711744) =
      3170534137668829 / 36028797018963968 := by
  simp only [tinyCoupon]
  rw [binary64_eq (7926335344172073 / 72057594037927936 - 6341068275337659 / 288230376151711744)
    6341068275337658 (-56) (by norm_num) (by norm_num) (by norm_num) (by norm_num)
    (by norm_num)]
  norm_num

theorem findOne_tinyCoupon :
    findOne [tinyCoupon] (trim (toUpperCase "tiny")) = some (0, tinyCoupon) := by
  have hcode : trim (toUpperCase "tiny") = "TINY" := by decide
  rw [hcode]
  simp [findOne, findOneFrom, tinyCoupon, sampleCoupon, hydrate]

theorem useCouponWith_tinyCoupon :
    (useCouponWith binary64 [tinyCoupon] "tiny" 5).2 =
      .used { tinyCoupon with
          usageCount := tinyCoupon.usageCount.addWith binary64 1
          totalDiscount :=
            tinyCoupon.totalDiscount.addWith binary64 (6341068275337659 / 288230376151711744)
          usedAt := some 5 }
        tinyCoupon.amount (6341068275337659 / 288230376151711744)
        (3170534137668829 / 36028797018963968) := by
  rw [useCouponWith_success binary64 [tinyCoupon] "tiny" 5 0 tinyCoupon (by decide)
    findOne_tinyCoupon rfl rfl, discountAmount64_tiny, after64_tiny]

/-- C11, as the code has it. When redeem succeeds on a coupon whose amount is
a binary64 value that is at least 0 and whose discount lies between 0 and
100, the answer carries the amount as `originalAmount`, a `discountAmount`
from 0 to 500 that is at most `amount / 5 * (1 + 2 ^ (-53)) ^ 4`, and an
`orderAmountAfterDiscount` that is not negative, not above `originalAmount`
and at least `(amount - amount / 5 * (1 + 2 ^ (-53)) ^ 4) * (1 - 2 ^ (-53))`.
The values that the same redeem computes without rounding satisfy
`discountAmount ≤ amount / 5` and `orderAmountAfterDiscount ≥ 4 / 5 * amount`. -/
theorem redeem_discount_bounds (s : Store) (codeParam : String) (now : Int) (c : Coupon)
    (a d r : ℚ) (h : (useCouponWith binary64 s codeParam now).2 = .used c a d r)
    (hdouble : binary64 c.amount = c.amount)
    (hamount : 0 ≤ c.amount) (hlow : 0 ≤ c.discount) (hhigh : c.discount ≤ 100) :
    a = c.amount ∧ 0 ≤ d ∧ d ≤ 500 ∧ d ≤ a / 5 * (1 + 2 ^ (-53 : ℤ)) ^ 4 ∧
    r = binary64 (a - d) ∧ 0 ≤ r ∧ r ≤ a ∧
    (a - a / 5 * (1 + 2 ^ (-53 : ℤ)) ^ 4) * (1 - 2 ^ (-53 : ℤ)) ≤ r ∧
    ∃ c₀ d₀ r₀, (useCoupon s codeParam now).2 = .used c₀ a d₀ r₀ ∧
      0 ≤ d₀ ∧ d₀ ≤ a / 5 ∧ r₀ = a - d₀ ∧ 4 / 5 * a ≤ r₀ ∧ 0 ≤ r₀ ∧ r₀ ≤ a := by
  obtain ⟨id, old, hcode, hfind, hact, hexp, hca, hcd, ha, hd, hr⟩ :=
    useCouponWith_used binary64 s codeParam now c a d r h
  rw [hca] at hdouble hamount
  rw [hcd] at hlow hhigh
  rw [← ha] at hdouble hamount hd hr
  obtain ⟨d0, d500, dfifth⟩ := discountAmount64_bounds a old.discount hamount hlow hhigh
  rw [← hd] at d0 d500 dfifth
  have hK : (1 + 2 ^ (-53 : ℤ) : ℚ) ^ 4 ≤ 5 := by norm_num
  have hda : d ≤ a := by
    have : a / 5 * (1 + 2 ^ (-53 : ℤ)) ^ 4 ≤ a / 5 * 5 :=
      mul_le_mul_of_nonneg_left hK (by positivity)
    linarith
  have hsub : 0 ≤ a - d := by linarith
  have hexact0 := discountAmount_nonneg a old.discount hamount hlow
  have hexact5 := discountAmount_le_fifth a old.discount hamount hhigh
  refine ⟨by rw [ha, hca], d0, d500, dfifth, hr, ?_, ?_, ?_, ?_⟩
  · rw [hr]
    exact binary64_nonneg _ hsub
  · rw [hr]
    exact binary64_le_of_le _ _ hsub (by linarith) hdouble
  · rw [hr]
    have h1 : (a - a / 5 * (1 + 2 ^ (-53 : ℤ)) ^ 4) * (1 - 2 ^ (-53 : ℤ)) ≤
        (a - d) * (1 - 2 ^ (-53 : ℤ)) :=
      mul_le_mul_of_nonneg_right (by linarith) (by norm_num)
    exact le_trans h1 (binary64_ge_rel _ hsub)
  · have hok := useCoupon_success s codeParam now id old hcode hfind hact hexp
    rw [← ha] at hok
    have hres := congrArg Prod.snd hok
    exact ⟨_, _, _, hres, hexact0, hexact5, rfl, by linarith, by linarith, by linarith⟩

theorem redeem_discount_bounds_witness :
    (binary64 tinyCoupon.amount = tinyCoupon.amount ∧ (0 : ℚ) ≤ tinyCoupon.amount ∧
      (0 : ℚ) ≤ tinyCoupon.discount ∧ tinyCoupon.discount ≤ 100) ∧
    (6341068275337659 / 288230376151711744 : ℚ) ≤
      tinyCoupon.amount / 5 * (1 + 2 ^ (-53 : ℤ)) ^ 4 ∧
    (3170534137668829 / 36028797018963968 : ℚ) ≤ tinyCoupon.amount :=
  have hb := redeem_discount_bounds [tinyCoupon] "tiny" 5 _ tinyCoupon.amount
    (6341068275337659 / 288230376151711744) (3170534137668829 / 36028797018963968)
    useCouponWith_tinyCoupon binary64_tiny_amount (by norm_num [tinyCoupon])
    (by norm_num [tinyCoupon]) (by norm_num [tinyCoupon])
  ⟨⟨binary64_tiny_amount, by norm_num [tinyCoupon], by norm_num [tinyCoupon],
    by norm_num [tinyCoupon]⟩, hb.2.2.2.1, hb.2.2.2.2.2.2.1⟩

/-- C11, as stated, fails. The coupon `TINY` has the binary64 value nearest to
0.11 as amount and discount 100, within the bounds of the schema. Redeem
answers with a `discountAmount` above a fifth of the amount and an
`orderAmountAfterDiscount` below four fifths of the amount. -/
theorem redeem_bounds_fail_in_binary64 :
    tinyCoupon.amount = binary64 (11 / 100) ∧ (0 : ℚ) ≤ tinyCoupon.amount ∧
    (0 : ℚ) ≤ tinyCoupon.discount ∧ tinyCoupon.discount ≤ 100 ∧
    ∃ c d r, (useCouponWith binary64 [tinyCoupon] "tiny" 5).2 =
        .used c tinyCoupon.amount d r ∧
      tinyCoupon.amount / 5 < d ∧ r < 4 / 5 * tinyCoupon.amount := by
  refine ⟨?_, by norm_num [tinyCoupon], by norm_num [tinyCoupon], by norm_num [tinyCoupon],
    _, _, _, useCouponWith_tinyCoupon, by norm_num [tinyCoupon], by norm_num [tinyCoupon]⟩
  rw [binary64_eq (11 / 100) 7926335344172073 (-56)
    (by norm_num) (by norm_num) (by norm_num) (by norm_num) (by norm_num)]
  norm_num [tinyCoupon]

end Directory
